import Mathlib

/-!
Verification of the mesh-to-signed-distance-field converter of the
bevy-sdf-blob repository.

The development shallowly embeds the repository's code:

* `src/shaders/mesh-distance.wgsl` — the per-voxel distance kernel
  (`point_triangle_distance`, `triangle_normal`, `compute_sign`) and the
  grid evaluator entry point (`main`);
* `src/sdf/distance-field.ts` — resolution of the sampling volume,
  the resource-handling orchestration of `computeDistanceField`;
* `src/mesh/types.ts` — `computeBounds`, `boundsCenter`, `boundsSize`;
* `src/mesh/obj-loader.ts` — the OBJ parser.

Numeric model: the shader's and the orchestrator's `f32`/JS-number
arithmetic is embedded over `ℚ` (exact arithmetic), with `Real.sqrt` for
the WGSL `length`/`normalize` built-ins.  Executable cores work on the
squares of lengths, which `ℚ` represents exactly; the real-valued
wrappers mirror the source text and are proved equal to the executable
cores through the strict monotonicity of the square root.
-/

namespace SdfBlob

/-- Value triple of components, the embedding of WGSL `vec3f` and of the
`Vec3` interface of `src/mesh/types.ts`; the component type is a
parameter so that the same operations serve the exact model (`ℚ`) and
the real-valued statements (`ℝ`). -/
structure Vec3 (α : Type) where
  x : α
  y : α
  z : α
deriving DecidableEq, Repr

/-- Componentwise addition, WGSL `a + b`. -/
def vadd {α : Type} [Add α] (a b : Vec3 α) : Vec3 α :=
  ⟨a.x + b.x, a.y + b.y, a.z + b.z⟩

/-- Componentwise subtraction, WGSL `a - b`. -/
def vsub {α : Type} [Sub α] (a b : Vec3 α) : Vec3 α :=
  ⟨a.x - b.x, a.y - b.y, a.z - b.z⟩

/-- Componentwise product, WGSL `a * b` on vectors. -/
def vmul {α : Type} [Mul α] (a b : Vec3 α) : Vec3 α :=
  ⟨a.x * b.x, a.y * b.y, a.z * b.z⟩

/-- Scalar times vector, WGSL `s * v`. -/
def vsmul {α : Type} [Mul α] (s : α) (a : Vec3 α) : Vec3 α :=
  ⟨s * a.x, s * a.y, s * a.z⟩

/-- Vector divided by a scalar, WGSL `v / s` and the JS componentwise
divisions. -/
def vdivs {α : Type} [Div α] (a : Vec3 α) (s : α) : Vec3 α :=
  ⟨a.x / s, a.y / s, a.z / s⟩

/-- Dot product, WGSL `dot`. -/
def vdot {α : Type} [Mul α] [Add α] (a b : Vec3 α) : α :=
  a.x * b.x + a.y * b.y + a.z * b.z

/-- Cross product, WGSL `cross`. -/
def vcross {α : Type} [Mul α] [Sub α] (a b : Vec3 α) : Vec3 α :=
  ⟨a.y * b.z - a.z * b.y, a.z * b.x - a.x * b.z, a.x * b.y - a.y * b.x⟩

/-- Squared Euclidean norm; WGSL `length v` is its square root. -/
def normSq {α : Type} [Mul α] [Add α] (a : Vec3 α) : α :=
  a.x * a.x + a.y * a.y + a.z * a.z

/-- Componentwise embedding of the exact model into the reals. -/
def castR (a : Vec3 ℚ) : Vec3 ℝ :=
  ⟨(a.x : ℝ), (a.y : ℝ), (a.z : ℝ)⟩

/-- WGSL `normalize v = v / length v`; in the real model a zero vector
normalizes to zero (`1 / 0 = 0` in `ℝ`), standing in for the shader's
undefined result on degenerate input. -/
noncomputable def vnormalize (v : Vec3 ℝ) : Vec3 ℝ :=
  vsmul (1 / Real.sqrt (normSq v)) v

/-- WGSL scalar `sign`: `-1`, `0` or `1`. -/
noncomputable def wgslSign (r : ℝ) : ℝ :=
  if r < 0 then -1 else if 0 < r then 1 else 0

/-- Exact-arithmetic sign, the executable counterpart of `wgslSign`. -/
def ratSign (q : ℚ) : ℚ :=
  if q < 0 then -1 else if 0 < q then 1 else 0

/-- The degeneracy threshold `1e-10` of `point_triangle_distance`
(`mesh-distance.wgsl`, line 50). -/
def epsDenom : ℚ := 1 / 10000000000

/-- The `2×2` normal-equations denominator `d00 * d11 - d01 * d01` of
`point_triangle_distance` (`mesh-distance.wgsl`, lines 41-47). -/
def tri_denom (v0 v1 v2 : Vec3 ℚ) : ℚ :=
  let e0 := vsub v1 v0
  let e1 := vsub v2 v0
  let d00 := vdot e0 e0
  let d01 := vdot e0 e1
  let d11 := vdot e1 e1
  d00 * d11 - d01 * d01

/-- The three-branch clamp of the barycentric coordinates
(`mesh-distance.wgsl`, lines 57-68): `s<0→0`, `t<0→0`, and when
`s+t>1` both are rescaled by `1/(s+t)`. -/
def clampST (s t : ℚ) : ℚ × ℚ :=
  let s1 := if s < 0 then 0 else s
  let t1 := if t < 0 then 0 else t
  if s1 + t1 > 1 then
    let scale := 1 / (s1 + t1)
    (s1 * scale, t1 * scale)
  else
    (s1, t1)

/-- The point `v0 + s·(v1-v0) + t·(v2-v0)` of the triangle's plane with
barycentric offsets `(s, t)`. -/
def triPoint {α : Type} [Add α] [Sub α] [Mul α] (v0 v1 v2 : Vec3 α) (s t : α) : Vec3 α :=
  vadd v0 (vadd (vsmul s (vsub v1 v0)) (vsmul t (vsub v2 v0)))

/-- Executable core of `point_triangle_distance` (`mesh-distance.wgsl`,
lines 36-72): the squared distance returned by the shader.  The shader
returns `length(p - v0)` in the degenerate branch and
`length(p - closest)` otherwise; this function returns the square of
that length, which is exact over `ℚ`. -/
def ptDistSq (p v0 v1 v2 : Vec3 ℚ) : ℚ :=
  let e0 := vsub v1 v0
  let e1 := vsub v2 v0
  let v := vsub p v0
  let d00 := vdot e0 e0
  let d01 := vdot e0 e1
  let d11 := vdot e1 e1
  let d20 := vdot v e0
  let d21 := vdot v e1
  let denom := d00 * d11 - d01 * d01
  if |denom| < epsDenom then
    normSq (vsub p v0)
  else
    let s := (d11 * d20 - d01 * d21) / denom
    let t := (d00 * d21 - d01 * d20) / denom
    let st := clampST s t
    normSq (vsub p (triPoint v0 v1 v2 st.1 st.2))

/-- The unclamped barycentric coordinate `s` of
`point_triangle_distance` (`mesh-distance.wgsl`, line 54). -/
def sRaw (p v0 v1 v2 : Vec3 ℚ) : ℚ :=
  let e0 := vsub v1 v0
  let e1 := vsub v2 v0
  let v := vsub p v0
  (vdot e1 e1 * vdot v e0 - vdot e0 e1 * vdot v e1) / tri_denom v0 v1 v2

/-- The unclamped barycentric coordinate `t` of
`point_triangle_distance` (`mesh-distance.wgsl`, line 55). -/
def tRaw (p v0 v1 v2 : Vec3 ℚ) : ℚ :=
  let e0 := vsub v1 v0
  let e1 := vsub v2 v0
  let v := vsub p v0
  (vdot e0 e0 * vdot v e1 - vdot e0 e1 * vdot v e0) / tri_denom v0 v1 v2

/-- The shader's `point_triangle_distance` itself: the (unsigned)
distance it returns, as a real number. -/
noncomputable def point_triangle_distance (p v0 v1 v2 : Vec3 ℚ) : ℝ :=
  Real.sqrt ((ptDistSq p v0 v1 v2 : ℚ) : ℝ)

/-- Euclidean distance between two points of the exact model. -/
noncomputable def vdist (a b : Vec3 ℚ) : ℝ :=
  Real.sqrt ((normSq (vsub a b) : ℚ) : ℝ)

/-- Set of distances from `p` to the points of the filled (solid)
triangle `{v0, v1, v2}`: the distances to `v0 + s·e0 + t·e1` over all
real barycentric pairs with `s, t ≥ 0`, `s + t ≤ 1`.  Its infimum is
the true point-to-triangle distance the specification speaks of. -/
def triDistSet (p v0 v1 v2 : Vec3 ℚ) : Set ℝ :=
  {d : ℝ | ∃ s t : ℝ, 0 ≤ s ∧ 0 ≤ t ∧ s + t ≤ 1 ∧
    d = Real.sqrt (normSq (vsub (castR p) (triPoint (castR v0) (castR v1) (castR v2) s t)))}

/-- The triangle centroid `(v0 + v1 + v2) / 3` of `compute_sign`
(`mesh-distance.wgsl`, line 82). -/
def triCentroid (v0 v1 v2 : Vec3 ℚ) : Vec3 ℚ :=
  vdivs (vadd (vadd v0 v1) v2) 3

/-- `triangle_normal` (`mesh-distance.wgsl`, lines 75-77):
`normalize(cross(v1 - v0, v2 - v0))`. -/
noncomputable def triangle_normal (v0 v1 v2 : Vec3 ℚ) : Vec3 ℝ :=
  vnormalize (castR (vcross (vsub v1 v0) (vsub v2 v0)))

/-- `compute_sign` (`mesh-distance.wgsl`, lines 80-85):
`sign(dot(normal, p - center))` with the triangle's unit normal and
centroid. -/
noncomputable def compute_sign (p v0 v1 v2 : Vec3 ℚ) : ℝ :=
  wgslSign (vdot (triangle_normal v0 v1 v2) (castR (vsub p (triCentroid v0 v1 v2))))

/-- Executable counterpart of `compute_sign`: the sign of the dot
product against the unnormalized cross product (normalizing scales the
dot product by a nonnegative factor, leaving the sign unchanged). -/
def signQ (p v0 v1 v2 : Vec3 ℚ) : ℚ :=
  ratSign (vdot (vcross (vsub v1 v0) (vsub v2 v0)) (vsub p (triCentroid v0 v1 v2)))

/-- The `Uniforms` block of `mesh-distance.wgsl` (lines 4-13), without
the padding words. -/
structure Uniforms where
  volume_min : Vec3 ℚ
  volume_max : Vec3 ℚ
  resolution : ℚ
  triangle_count : ℚ
deriving DecidableEq, Repr

/-- WGSL `u32(f)` on the model's exact scalars: truncation toward zero,
clamped below at `0` (the shader only converts nonnegative counts). -/
def u32cast (q : ℚ) : ℕ :=
  (⌊q⌋).toNat

/-- `get_vertex` (`mesh-distance.wgsl`, lines 21-24): reads three
consecutive scalars of the flat vertex array; an out-of-range read
yields `0` in the model. -/
def get_vertex (vertices : List ℚ) (idx : ℕ) : Vec3 ℚ :=
  let base := idx * 3
  ⟨vertices.getD base 0, vertices.getD (base + 1) 0, vertices.getD (base + 2) 0⟩

/-- `get_triangle` (`mesh-distance.wgsl`, lines 27-33). -/
def get_triangle (vertices : List ℚ) (indices : List ℕ) (tri_idx : ℕ) :
    Vec3 ℚ × Vec3 ℚ × Vec3 ℚ :=
  let base := tri_idx * 3
  (get_vertex vertices (indices.getD base 0),
   get_vertex vertices (indices.getD (base + 1) 0),
   get_vertex vertices (indices.getD (base + 2) 0))

/-- Voxel-center sample position of `main` (`mesh-distance.wgsl`,
lines 96-98): `volume_min + (vec3f(gid) + 0.5) * voxel_size` with
`voxel_size = (volume_max - volume_min) / resolution`. -/
def voxelCenter (u : Uniforms) (gid : ℕ × ℕ × ℕ) : Vec3 ℚ :=
  let voxel_size := vdivs (vsub u.volume_max u.volume_min) u.resolution
  vadd u.volume_min
    (vmul (vadd ⟨(gid.1 : ℚ), (gid.2.1 : ℚ), (gid.2.2 : ℚ)⟩ ⟨1/2, 1/2, 1/2⟩) voxel_size)

/-- The square of the loop sentinel `1e10` of `main`
(`mesh-distance.wgsl`, line 101). -/
def bigSq : ℚ := 10 ^ 20

/-- Executable core of the minimum-tracking loop of `main`
(`mesh-distance.wgsl`, lines 101-112), over squared distances:
`sdfLoop d n` runs the loop body for `i = 0, …, n-1` starting from
`(min_dist, closest_tri) = (1e10, 0)` (squared: `(1e20, 0)`), updating
on strict improvement only. -/
def sdfLoop (d : ℕ → ℚ) : ℕ → ℚ × ℕ
  | 0 => (bigSq, 0)
  | n + 1 =>
    let r := sdfLoop d n
    if d n < r.1 then (d n, n) else r

/-- The loop of `main` as the source writes it, over real distances,
with the sentinel `1e10`. -/
noncomputable def sdfLoopR (d : ℕ → ℝ) : ℕ → ℝ × ℕ
  | 0 => ((10 ^ 10 : ℝ), 0)
  | n + 1 =>
    let r := sdfLoopR d n
    if d n < r.1 then (d n, n) else r

/-- Bounds check of `main` (`mesh-distance.wgsl`, line 92): the thread
writes only when each component of `gid` is below the resolution. -/
def inRange (u : Uniforms) (gid : ℕ × ℕ × ℕ) : Prop :=
  gid.1 < u32cast u.resolution ∧ gid.2.1 < u32cast u.resolution ∧
    gid.2.2 < u32cast u.resolution

instance (u : Uniforms) (gid : ℕ × ℕ × ℕ) : Decidable (inRange u gid) := by
  unfold inRange; infer_instance

/-- The squared distance from the voxel center of thread `gid` to
triangle `i` of the mesh arrays: the square of the loop body's
`d = point_triangle_distance(p, tri[0], tri[1], tri[2])`
(`mesh-distance.wgsl`, lines 106-107). -/
def voxelDistSq (u : Uniforms) (vertices : List ℚ) (indices : List ℕ)
    (gid : ℕ × ℕ × ℕ) (i : ℕ) : ℚ :=
  let tri := get_triangle vertices indices i
  ptDistSq (voxelCenter u gid) tri.1 tri.2.1 tri.2.2

/-- The value `main` (`mesh-distance.wgsl`, lines 87-120) stores for
thread `gid`: `none` when the thread returns early at the bounds check,
otherwise `sign(closest triangle) * min_dist`. -/
noncomputable def mainResult (u : Uniforms) (vertices : List ℚ) (indices : List ℕ)
    (gid : ℕ × ℕ × ℕ) : Option ℝ :=
  let resolution := u32cast u.resolution
  if resolution ≤ gid.1 ∨ resolution ≤ gid.2.1 ∨ resolution ≤ gid.2.2 then
    none
  else
    let r := sdfLoopR
      (fun i => Real.sqrt ((voxelDistSq u vertices indices gid i : ℚ) : ℝ))
      (u32cast u.triangle_count)
    let tri := get_triangle vertices indices r.2
    some (compute_sign (voxelCenter u gid) tri.1 tri.2.1 tri.2.2 * r.1)

/-- One write of the dispatch: thread `o` stores its value into its own
cell of the output grid; an out-of-range thread stores nothing. -/
noncomputable def writeVoxel (u : Uniforms) (vertices : List ℚ) (indices : List ℕ)
    (grid : ℕ × ℕ × ℕ → ℝ) (o : ℕ × ℕ × ℕ) : ℕ × ℕ × ℕ → ℝ :=
  match mainResult u vertices indices o with
  | some v => fun g => if g = o then v else grid g
  | none => grid

/-- A whole dispatch executed in the thread order `order`: each listed
thread runs `main` and writes (at most) its own cell.  The order models
an arbitrary partitioning of the voxel grid over execution units. -/
noncomputable def runDispatch (u : Uniforms) (vertices : List ℚ) (indices : List ℕ)
    (order : List (ℕ × ℕ × ℕ)) (grid : ℕ × ℕ × ℕ → ℝ) : ℕ × ℕ × ℕ → ℝ :=
  match order with
  | [] => grid
  | o :: rest => runDispatch u vertices indices rest (writeVoxel u vertices indices grid o)

/-- `BoundingBox` of `src/mesh/types.ts`. -/
structure BBox where
  bmin : Vec3 ℚ
  bmax : Vec3 ℚ
deriving DecidableEq, Repr

/-- The loop of `computeBounds` (`src/mesh/types.ts`, lines 54-66):
starting from index `3`, fold the running componentwise minima and
maxima over the flat vertex array, three scalars at a stride. -/
def boundsLoop (vertices : List ℚ) (i : ℕ) (mn mx : Vec3 ℚ) : BBox :=
  if h : i < vertices.length then
    let x := vertices.getD i 0
    let y := vertices.getD (i + 1) 0
    let z := vertices.getD (i + 2) 0
    boundsLoop vertices (i + 3)
      ⟨min mn.x x, min mn.y y, min mn.z z⟩
      ⟨max mx.x x, max mx.y y, max mx.z z⟩
  else
    ⟨mn, mx⟩
termination_by vertices.length - i
decreasing_by omega

/-- `computeBounds` (`src/mesh/types.ts`, lines 39-69): the degenerate
all-zero box for fewer than three scalars, otherwise the loop starting
from the first vertex. -/
def computeBounds (vertices : List ℚ) : BBox :=
  if vertices.length < 3 then
    ⟨⟨0, 0, 0⟩, ⟨0, 0, 0⟩⟩
  else
    let first : Vec3 ℚ := ⟨vertices.getD 0 0, vertices.getD 1 0, vertices.getD 2 0⟩
    boundsLoop vertices 3 first first

/-- The vertices of a flat scalar array, read three at a time (the
specification-side view of the array `computeBounds` iterates). -/
def vtriples : List ℚ → List (Vec3 ℚ)
  | x :: y :: z :: rest => ⟨x, y, z⟩ :: vtriples rest
  | _ => []

/-- Structural fold computing componentwise minima and maxima over a
vertex list, the specification-side counterpart of `boundsLoop`. -/
def boundsFold : List (Vec3 ℚ) → Vec3 ℚ → Vec3 ℚ → BBox
  | [], mn, mx => ⟨mn, mx⟩
  | v :: rest, mn, mx =>
    boundsFold rest
      ⟨min mn.x v.x, min mn.y v.y, min mn.z v.z⟩
      ⟨max mx.x v.x, max mx.y v.y, max mx.z v.z⟩

/-- `boundsCenter` (`src/mesh/types.ts`, lines 89-95). -/
def boundsCenter (b : BBox) : Vec3 ℚ :=
  ⟨(b.bmin.x + b.bmax.x) / 2, (b.bmin.y + b.bmax.y) / 2, (b.bmin.z + b.bmax.z) / 2⟩

/-- `boundsSize` (`src/mesh/types.ts`, lines 100-106). -/
def boundsSize (b : BBox) : Vec3 ℚ :=
  ⟨b.bmax.x - b.bmin.x, b.bmax.y - b.bmin.y, b.bmax.z - b.bmin.z⟩

/-- The `Mesh` interface of `src/mesh/types.ts`: flat vertex scalars,
flat triangle indices, the stored triangle count and bounding box. -/
structure Mesh where
  vertices : List ℚ
  indices : List ℕ
  triangleCount : ℕ
  bounds : BBox
deriving DecidableEq, Repr

/-- `DistanceFieldConfig` of `src/sdf/distance-field.ts`. -/
structure DistanceFieldConfig where
  resolution : ℚ
  padding : ℚ
deriving DecidableEq, Repr

/-- The optional caller-supplied part of the config
(`Partial<DistanceFieldConfig>`). -/
structure PartialConfig where
  resolution : Option ℚ := none
  padding : Option ℚ := none
deriving DecidableEq, Repr

/-- `DEFAULT_CONFIG` (`src/sdf/distance-field.ts`, lines 27-30). -/
def DEFAULT_CONFIG : DistanceFieldConfig :=
  ⟨64, 1/10⟩

/-- The spread merge `{ ...DEFAULT_CONFIG, ...config }`
(`src/sdf/distance-field.ts`, line 40). -/
def mergeConfig (c : PartialConfig) : DistanceFieldConfig :=
  ⟨c.resolution.getD DEFAULT_CONFIG.resolution, c.padding.getD DEFAULT_CONFIG.padding⟩

/-- `maxExtent` (`src/sdf/distance-field.ts`, line 46): the largest of
the three axis extents of the mesh bounds. -/
def maxExtentOf (meshBounds : BBox) : ℚ :=
  let s := boundsSize meshBounds
  max (max s.x s.y) s.z

/-- `halfExtent` (`src/sdf/distance-field.ts`, line 47):
`maxExtent * (1 + padding) / 2`. -/
def halfExtentOf (meshBounds : BBox) (padding : ℚ) : ℚ :=
  maxExtentOf meshBounds * (1 + padding) / 2

/-- `volumeBounds` (`src/sdf/distance-field.ts`, lines 49-60): the cube
around the mesh center with half-extent `halfExtentOf` on every axis. -/
def volumeBoundsOf (meshBounds : BBox) (padding : ℚ) : BBox :=
  let c := boundsCenter meshBounds
  let h := halfExtentOf meshBounds padding
  ⟨⟨c.x - h, c.y - h, c.z - h⟩, ⟨c.x + h, c.y + h, c.z + h⟩⟩

/-- `voxelSize` (`src/sdf/distance-field.ts`, line 62):
`halfExtent * 2 / resolution`. -/
def voxelSizeOf (meshBounds : BBox) (padding : ℚ) (resolution : ℚ) : ℚ :=
  halfExtentOf meshBounds padding * 2 / resolution

/-- The observable GPU-resource actions `computeDistanceField` performs,
in program order.  `createBuffer` and `createShaderModule` come from the
`src/webgpu/context` helpers (not part of this slice); each stands for
one allocation or release of the named resource. -/
inductive GpuOp where
  | createTexture (size : ℚ × ℚ × ℚ)
  | createBuffer (label : String)
  | createShaderModule
  | createComputePipeline
  | createBindGroup
  | dispatchWorkgroups (x y z : ℤ)
  | submit
  | awaitWorkDone
  | destroyBuffer (label : String)
deriving DecidableEq, Repr

/-- The `DistanceField` descriptor `computeDistanceField` returns
(texture handle abstracted away). -/
structure DistanceField where
  resolution : ℚ
  bounds : BBox
  voxelSize : ℚ
deriving DecidableEq, Repr

def labelVertices : String := "Mesh Vertices"

def labelIndices : String := "Mesh Indices"

def labelUniforms : String := "Distance Field Uniforms"

/-- Trace model of `computeDistanceField` (`src/sdf/distance-field.ts`,
lines 35-157): the GPU actions in source order and the returned
descriptor.  `awaitOk` injects the one suspension point's outcome: when
`queue.onSubmittedWorkDone()` rejects (device loss during the dispatch),
the exception propagates out of the function at that point and the
statements after the `await` — including the three buffer `destroy`
calls — never run.  The function contains no validation branch: no
input is rejected before the allocations. -/
def computeDistanceFieldRun (mesh : Mesh) (config : PartialConfig) (awaitOk : Bool) :
    List GpuOp × Option DistanceField :=
  let cfg := mergeConfig config
  let volumeBounds := volumeBoundsOf mesh.bounds cfg.padding
  let voxelSize := voxelSizeOf mesh.bounds cfg.padding cfg.resolution
  let workgroupCount : ℤ := ⌈cfg.resolution / 8⌉
  let ops : List GpuOp :=
    [GpuOp.createTexture (cfg.resolution, cfg.resolution, cfg.resolution),
     GpuOp.createBuffer labelVertices,
     GpuOp.createBuffer labelIndices,
     GpuOp.createBuffer labelUniforms,
     GpuOp.createShaderModule,
     GpuOp.createComputePipeline,
     GpuOp.createBindGroup,
     GpuOp.dispatchWorkgroups workgroupCount workgroupCount workgroupCount,
     GpuOp.submit,
     GpuOp.awaitWorkDone]
  if awaitOk then
    (ops ++ [GpuOp.destroyBuffer labelVertices, GpuOp.destroyBuffer labelIndices,
             GpuOp.destroyBuffer labelUniforms],
     some ⟨cfg.resolution, volumeBounds, voxelSize⟩)
  else
    (ops, none)

/-- Number of transient buffer allocations in a trace. -/
def countBufferCreates (ops : List GpuOp) : ℕ :=
  ops.countP fun o => match o with | GpuOp.createBuffer _ => true | _ => false

/-- Number of buffer releases in a trace. -/
def countBufferDestroys (ops : List GpuOp) : ℕ :=
  ops.countP fun o => match o with | GpuOp.destroyBuffer _ => true | _ => false

/-- Whether a trace performs any resource allocation. -/
def allocates (ops : List GpuOp) : Bool :=
  ops.any fun o =>
    match o with
    | GpuOp.createTexture _ => true
    | GpuOp.createBuffer _ => true
    | _ => false

/-- `OBJParseError` of `src/mesh/obj-loader.ts`. -/
structure OBJParseError where
  message : String
  line : Option ℕ := none
deriving DecidableEq, Repr

/-- JS string values that the parser manipulates are embedded as their
character lists; `String.data` maps a Lean string literal to this
representation at the entry point. -/
def trimChars (cs : List Char) : List Char :=
  ((cs.dropWhile Char.isWhitespace).reverse.dropWhile Char.isWhitespace).reverse

/-- Accumulator pass of `tokenizeLine`. -/
def tokensAux (cur : List Char) : List Char → List (List Char)
  | [] => if cur.isEmpty then [] else [cur.reverse]
  | c :: cs =>
    if Char.isWhitespace c then
      if cur.isEmpty then tokensAux [] cs
      else cur.reverse :: tokensAux [] cs
    else tokensAux (c :: cur) cs

/-- The tokenization `line.split(/\s+/)` of a trimmed line: maximal
whitespace-free runs, in order. -/
def tokenizeLine (line : List Char) : List (List Char) :=
  tokensAux [] line

/-- Digits of a numeral folded into a natural number. -/
def digitsVal (ds : List Char) : ℕ :=
  ds.foldl (fun n c => 10 * n + (c.toNat - 48)) 0

/-- Unsigned decimal numeral with an optional fractional part, the model
of what JS `parseFloat` accepts in this code's OBJ vertex lines (leading
digits, optionally a point and further digits; trailing characters are
ignored as `parseFloat` ignores them; anything else is `NaN`, here
`none`). -/
def parseDecQ (cs : List Char) : Option ℚ :=
  let intPart := cs.takeWhile Char.isDigit
  let rest := cs.dropWhile Char.isDigit
  match rest with
  | '.' :: rest2 =>
    let frac := rest2.takeWhile Char.isDigit
    if intPart.isEmpty ∧ frac.isEmpty then none
    else some ((digitsVal intPart : ℚ) + (digitsVal frac : ℚ) / (10 ^ frac.length : ℚ))
  | _ => if intPart.isEmpty then none else some (digitsVal intPart : ℚ)

/-- Model of JS `parseFloat`: optional sign, then a decimal numeral. -/
def parseFloatQ (cs : List Char) : Option ℚ :=
  match cs with
  | '-' :: rest => (parseDecQ rest).map Neg.neg
  | '+' :: rest => parseDecQ rest
  | _ => parseDecQ cs

/-- Model of JS `parseInt(s, 10)`: optional sign, then leading digits;
`none` (JS `NaN`) when no digit leads. -/
def parseIntQ (cs : List Char) : Option ℤ :=
  match cs with
  | '-' :: rest =>
    if (rest.takeWhile Char.isDigit).isEmpty then none
    else some (-(digitsVal (rest.takeWhile Char.isDigit) : ℤ))
  | '+' :: rest =>
    if (rest.takeWhile Char.isDigit).isEmpty then none
    else some (digitsVal (rest.takeWhile Char.isDigit) : ℤ)
  | _ =>
    if (cs.takeWhile Char.isDigit).isEmpty then none
    else some (digitsVal (cs.takeWhile Char.isDigit) : ℤ)

/-- `parseVertex` (`src/mesh/obj-loader.ts`, lines 76-90): three
coordinates appended to the flat vertex list, or an error. -/
def parseVertex (parts : List (List Char)) (vertices : List ℚ) (lineNum : ℕ) :
    Except OBJParseError (List ℚ) :=
  if parts.length < 4 then
    .error ⟨"Vertex must have at least 3 coordinates", some lineNum⟩
  else
    match parseFloatQ (parts.getD 1 []), parseFloatQ (parts.getD 2 []),
        parseFloatQ (parts.getD 3 []) with
    | some x, some y, some z => .ok (vertices ++ [x, y, z])
    | _, _, _ => .error ⟨"Invalid vertex coordinates", some lineNum⟩

/-- One face token of `parseFace` (`src/mesh/obj-loader.ts`,
lines 105-132): the vertex index before the first `/` (the JS
`split('/')[0]`), made zero-based (negative indices count back from the
current vertex count), rejected when it is `0`, unparsable, or out of
range. -/
def parseFaceIndex (tok : List Char) (vertexCount : ℕ) (lineNum : ℕ) :
    Except OBJParseError ℕ :=
  match parseIntQ (tok.takeWhile fun c => c != '/') with
  | none => .error ⟨"Invalid face vertex index", some lineNum⟩
  | some index =>
    if index > 0 then
      if (index - 1 : ℤ) < 0 ∨ (vertexCount : ℤ) ≤ index - 1 then
        .error ⟨"Face vertex index out of range", some lineNum⟩
      else
        .ok (index - 1).toNat
    else if index < 0 then
      if ((vertexCount : ℤ) + index) < 0 ∨ (vertexCount : ℤ) ≤ (vertexCount : ℤ) + index then
        .error ⟨"Face vertex index out of range", some lineNum⟩
      else
        .ok ((vertexCount : ℤ) + index).toNat
    else
      .error ⟨"Face vertex index cannot be 0", some lineNum⟩

/-- The token loop of `parseFace`: every face token resolved to a
zero-based vertex index, stopping at the first error. -/
def parseFaceIndices (toks : List (List Char)) (vertexCount : ℕ) (lineNum : ℕ) :
    Except OBJParseError (List ℕ) :=
  match toks with
  | [] => .ok []
  | t :: ts =>
    match parseFaceIndex t vertexCount lineNum with
    | .error e => .error e
    | .ok i =>
      match parseFaceIndices ts vertexCount lineNum with
      | .error e => .error e
      | .ok rest => .ok (i :: rest)

/-- The fan triangulation of `parseFace` (`src/mesh/obj-loader.ts`,
lines 134-137): for `i = 1, …, k-2` push the triangle
`(f0, f[i], f[i+1])`. -/
def fanFrom (f0 : ℕ) : List ℕ → List ℕ
  | b :: c :: rest => f0 :: b :: c :: fanFrom f0 (c :: rest)
  | _ => []

/-- `parseFace` (`src/mesh/obj-loader.ts`, lines 92-138): parse every
face token against the current vertex count and append the fan
triangulation to the flat index list. -/
def parseFace (parts : List (List Char)) (indices : List ℕ) (vertexCount : ℕ)
    (lineNum : ℕ) : Except OBJParseError (List ℕ) :=
  if parts.length < 4 then
    .error ⟨"Face must have at least 3 vertices", some lineNum⟩
  else
    match parseFaceIndices (parts.drop 1) vertexCount lineNum with
    | .error e => .error e
    | .ok (f0 :: rest) => .ok (indices ++ fanFrom f0 rest)
    | .ok [] => .ok indices

/-- The flat parse state of `parseOBJContent`. -/
structure ParsedOBJ where
  vertices : List ℚ
  indices : List ℕ
deriving DecidableEq, Repr

/-- The line loop of `parseOBJContent` (`src/mesh/obj-loader.ts`,
lines 51-71): trim, skip blanks and comments, dispatch on the leading
command (`v`, `f`, anything else ignored); `lineNum` is the 1-based
number of the next line. -/
def parseLines (lines : List (List Char)) (lineNum : ℕ) (vertices : List ℚ)
    (indices : List ℕ) : Except OBJParseError ParsedOBJ :=
  match lines with
  | [] => .ok ⟨vertices, indices⟩
  | l :: rest =>
    let line := trimChars l
    if line.length = 0 ∨ line.head? = some '#' then
      parseLines rest (lineNum + 1) vertices indices
    else
      let parts := tokenizeLine line
      let command := parts.headD []
      if command = ['v'] then
        match parseVertex parts vertices lineNum with
        | .error e => .error e
        | .ok vertices2 => parseLines rest (lineNum + 1) vertices2 indices
      else if command = ['f'] then
        match parseFace parts indices (vertices.length / 3) lineNum with
        | .error e => .error e
        | .ok indices2 => parseLines rest (lineNum + 1) vertices indices2
      else
        parseLines rest (lineNum + 1) vertices indices

/-- The line splitting `content.split('\n')`: every line, the empty
ones included. -/
def splitLines : List Char → List (List Char)
  | [] => [[]]
  | c :: rest =>
    if c = '\n' then [] :: splitLines rest
    else
      match splitLines rest with
      | l :: ls => (c :: l) :: ls
      | [] => [[c]]

/-- `parseOBJContent` (`src/mesh/obj-loader.ts`, lines 46-74). -/
def parseOBJContent (content : String) : Except OBJParseError ParsedOBJ :=
  parseLines (splitLines content.data) 1 [] []

/-- `parseOBJ` (`src/mesh/obj-loader.ts`, lines 23-44): reject an empty
vertex or index list, then assemble the `Mesh` with
`triangleCount = indices.length / 3` and the computed bounds. -/
def parseOBJ (content : String) : Except OBJParseError Mesh :=
  match parseOBJContent content with
  | .error e => .error e
  | .ok parsed =>
    if parsed.vertices.length = 0 then
      .error ⟨"No vertices found in OBJ file", none⟩
    else if parsed.indices.length = 0 then
      .error ⟨"No faces found in OBJ file", none⟩
    else
      .ok ⟨parsed.vertices, parsed.indices, parsed.indices.length / 3,
        computeBounds parsed.vertices⟩

/-! ## Concrete test fixtures used in the closed statements below -/

/-- Uniforms of a `1×1×1` grid over the unit cube with one triangle. -/
def farU : Uniforms := ⟨⟨0, 0, 0⟩, ⟨1, 1, 1⟩, 1, 1⟩

/-- One triangle at distance around `10^11` from the unit cube — beyond
the shader loop's `1e10` sentinel. -/
def farVerts : List ℚ :=
  [100000000000, 0, 0, 100000000001, 0, 0, 100000000000, 1, 0]

def farIdx : List ℕ := [0, 1, 2]

/-- Uniforms of a `1×1×1` grid over the unit cube with two triangles. -/
def farU2 : Uniforms := ⟨⟨0, 0, 0⟩, ⟨1, 1, 1⟩, 1, 2⟩

/-- The far triangle of `farVerts` plus a second, strictly closer
triangle at distance around `5·10^10` (still beyond the sentinel),
wound the opposite way so that its sign contribution is `-1`. -/
def farVerts2 : List ℚ :=
  farVerts ++ [50000000000, 0, 0, 50000000000, 1, 0, 50000000001, 0, 0]

def farIdx2 : List ℕ := [0, 1, 2, 3, 4, 5]

/-- The unit right triangle in the `z = 0` plane. -/
def unitVerts : List ℚ := [0, 0, 0, 1, 0, 0, 0, 1, 0]

/-- A single-triangle mesh (the unit right triangle). -/
def meshTri : Mesh :=
  ⟨unitVerts, [0, 1, 2], 1, ⟨⟨0, 0, 0⟩, ⟨1, 1, 0⟩⟩⟩

/-- A mesh with zero vertices and zero triangles. -/
def emptyMesh : Mesh :=
  ⟨[], [], 0, ⟨⟨0, 0, 0⟩, ⟨0, 0, 0⟩⟩⟩

/-- A small OBJ file: three vertices, one triangular face. -/
def objSample : String :=
  "v 0 0 0\nv 1 0 0\nv 0 1 0\nf 1 2 3"

/-- The mesh `parseOBJ` produces from `objSample`. -/
def objSampleMesh : Mesh :=
  ⟨[0, 0, 0, 1, 0, 0, 0, 1, 0], [0, 1, 2], 1, ⟨⟨0, 0, 0⟩, ⟨1, 1, 0⟩⟩⟩

/-! ## Casting lemmas between the exact and the real model -/

theorem castR_vadd (a b : Vec3 ℚ) : castR (vadd a b) = vadd (castR a) (castR b) := by
  simp [castR, vadd]

theorem castR_vsub (a b : Vec3 ℚ) : castR (vsub a b) = vsub (castR a) (castR b) := by
  simp [castR, vsub]

theorem castR_vsmul (s : ℚ) (a : Vec3 ℚ) :
    castR (vsmul s a) = vsmul (s : ℝ) (castR a) := by
  simp [castR, vsmul]

theorem castR_vdot (a b : Vec3 ℚ) : ((vdot a b : ℚ) : ℝ) = vdot (castR a) (castR b) := by
  simp [castR, vdot]

theorem castR_normSq (a : Vec3 ℚ) : ((normSq a : ℚ) : ℝ) = normSq (castR a) := by
  simp [castR, normSq]

theorem castR_triPoint (v0 v1 v2 : Vec3 ℚ) (s t : ℚ) :
    castR (triPoint v0 v1 v2 s t)
      = triPoint (castR v0) (castR v1) (castR v2) (s : ℝ) (t : ℝ) := by
  simp [triPoint, castR_vadd, castR_vsmul, castR_vsub]

theorem normSq_nonneg {α : Type} [LinearOrderedRing α] (a : Vec3 α) : 0 ≤ normSq a :=
  add_nonneg (add_nonneg (mul_self_nonneg _) (mul_self_nonneg _)) (mul_self_nonneg _)

theorem normSq_pos_of_ne {a : Vec3 ℚ} (h : a ≠ ⟨0, 0, 0⟩) : 0 < normSq a := by
  rcases (normSq_nonneg a).lt_or_eq with hlt | heq
  · exact hlt
  · exfalso
    apply h
    obtain ⟨x, y, z⟩ := a
    simp only [normSq] at heq
    have hx : x * x = 0 := by nlinarith [mul_self_nonneg x, mul_self_nonneg y, mul_self_nonneg z]
    have hy : y * y = 0 := by nlinarith [mul_self_nonneg x, mul_self_nonneg y, mul_self_nonneg z]
    have hz : z * z = 0 := by nlinarith [mul_self_nonneg x, mul_self_nonneg y, mul_self_nonneg z]
    simp only [mul_self_eq_zero] at hx hy hz
    simp [hx, hy, hz]

theorem vdot_zero_left (b : Vec3 ℚ) : vdot (⟨0, 0, 0⟩ : Vec3 ℚ) b = 0 := by
  simp [vdot]

theorem vdot_smul_left (c : ℝ) (a b : Vec3 ℝ) :
    vdot (vsmul c a) b = c * vdot a b := by
  simp [vdot, vsmul]; ring

/-- `compute_sign` agrees with its executable counterpart `signQ`:
normalizing the cross product scales the dot product by a nonnegative
factor and so cannot change the sign (a zero cross product makes both
sides `0`). -/
theorem compute_sign_eq_signQ (p v0 v1 v2 : Vec3 ℚ) :
    compute_sign p v0 v1 v2 = ((signQ p v0 v1 v2 : ℚ) : ℝ) := by
  unfold compute_sign signQ triangle_normal vnormalize
  set cr := vcross (vsub v1 v0) (vsub v2 v0) with hcr
  set w := vsub p (triCentroid v0 v1 v2) with hw
  rw [vdot_smul_left, ← castR_vdot]
  set dq := vdot cr w with hdq
  have hc : (0 : ℝ) ≤ 1 / Real.sqrt (normSq (castR cr)) :=
    div_nonneg zero_le_one (Real.sqrt_nonneg _)
  rcases lt_trichotomy dq 0 with hneg | hzero | hpos
  · have hcrne : cr ≠ ⟨0, 0, 0⟩ := by
      intro h0
      rw [h0] at hdq
      rw [vdot_zero_left] at hdq
      exact absurd (hdq ▸ hneg) (lt_irrefl 0)
    have hpos2 : (0 : ℝ) < 1 / Real.sqrt (normSq (castR cr)) := by
      apply div_pos one_pos
      rw [← castR_normSq]
      exact Real.sqrt_pos.mpr (by exact_mod_cast normSq_pos_of_ne hcrne)
    have harg : 1 / Real.sqrt (normSq (castR cr)) * (dq : ℝ) < 0 :=
      mul_neg_of_pos_of_neg hpos2 (by exact_mod_cast hneg)
    rw [wgslSign, if_pos harg, ratSign, if_pos hneg]
    norm_num
  · rw [wgslSign, ratSign, hzero]
    norm_num
  · have hcrne : cr ≠ ⟨0, 0, 0⟩ := by
      intro h0
      rw [h0] at hdq
      rw [vdot_zero_left] at hdq
      exact absurd (hdq ▸ hpos) (lt_irrefl 0)
    have hpos2 : (0 : ℝ) < 1 / Real.sqrt (normSq (castR cr)) := by
      apply div_pos one_pos
      rw [← castR_normSq]
      exact Real.sqrt_pos.mpr (by exact_mod_cast normSq_pos_of_ne hcrne)
    have harg : 0 < 1 / Real.sqrt (normSq (castR cr)) * (dq : ℝ) :=
      mul_pos hpos2 (by exact_mod_cast hpos)
    rw [wgslSign, if_neg (not_lt.mpr harg.le), if_pos harg, ratSign,
      if_neg (not_lt.mpr hpos.le), if_pos hpos]
    norm_num

/-! ## The barycentric clamp (claims C2 and C5) -/

/-- `ptDistSq` written through `tri_denom`, `sRaw`, `tRaw` and
`clampST`: the two branches of `point_triangle_distance`. -/
theorem ptDistSq_eq (p v0 v1 v2 : Vec3 ℚ) :
    ptDistSq p v0 v1 v2 =
      if |tri_denom v0 v1 v2| < epsDenom then normSq (vsub p v0)
      else
        normSq (vsub p (triPoint v0 v1 v2
          (clampST (sRaw p v0 v1 v2) (tRaw p v0 v1 v2)).1
          (clampST (sRaw p v0 v1 v2) (tRaw p v0 v1 v2)).2)) :=
  rfl

theorem clampST_mem (s t : ℚ) :
    0 ≤ (clampST s t).1 ∧ 0 ≤ (clampST s t).2 ∧
      (clampST s t).1 + (clampST s t).2 ≤ 1 := by
  unfold clampST
  set s1 := if s < 0 then (0 : ℚ) else s with hs1
  set t1 := if t < 0 then (0 : ℚ) else t with ht1
  have hs1n : 0 ≤ s1 := by
    rw [hs1]; split_ifs with h
    · exact le_refl 0
    · exact le_of_not_lt h
  have ht1n : 0 ≤ t1 := by
    rw [ht1]; split_ifs with h
    · exact le_refl 0
    · exact le_of_not_lt h
  by_cases hsum : s1 + t1 > 1
  · have hpos : 0 < s1 + t1 := lt_trans one_pos hsum
    simp only [if_pos hsum]
    refine ⟨mul_nonneg hs1n (by positivity), mul_nonneg ht1n (by positivity), ?_⟩
    have hone : s1 * (1 / (s1 + t1)) + t1 * (1 / (s1 + t1)) = 1 := by
      field_simp
    rw [hone]
  · simp only [if_neg hsum]
    exact ⟨hs1n, ht1n, le_of_not_lt hsum⟩

/-- The point whose distance `point_triangle_distance` returns always
has clamped barycentric coordinates inside the closed unit simplex. -/
theorem ptDistSq_exists_bary (p v0 v1 v2 : Vec3 ℚ) :
    ∃ s t : ℚ, 0 ≤ s ∧ 0 ≤ t ∧ s + t ≤ 1 ∧
      ptDistSq p v0 v1 v2 = normSq (vsub p (triPoint v0 v1 v2 s t)) := by
  rw [ptDistSq_eq]
  split_ifs with h
  · refine ⟨0, 0, le_refl 0, le_refl 0, by norm_num, ?_⟩
    have h0 : triPoint v0 v1 v2 0 0 = v0 := by
      simp [triPoint, vsmul, vadd, vsub]
    rw [h0]
  · obtain ⟨h1, h2, h3⟩ := clampST_mem (sRaw p v0 v1 v2) (tRaw p v0 v1 v2)
    exact ⟨_, _, h1, h2, h3, rfl⟩

theorem triDistSet_bddBelow (p v0 v1 v2 : Vec3 ℚ) :
    BddBelow (triDistSet p v0 v1 v2) := by
  refine ⟨0, ?_⟩
  rintro d ⟨s, t, _, _, _, rfl⟩
  exact Real.sqrt_nonneg _

theorem point_triangle_distance_mem (p v0 v1 v2 : Vec3 ℚ) :
    point_triangle_distance p v0 v1 v2 ∈ triDistSet p v0 v1 v2 := by
  obtain ⟨s, t, hs, ht, hst, heq⟩ := ptDistSq_exists_bary p v0 v1 v2
  refine ⟨(s : ℝ), (t : ℝ), by exact_mod_cast hs, by exact_mod_cast ht, ?_, ?_⟩
  · exact_mod_cast hst
  · unfold point_triangle_distance
    rw [heq, castR_normSq, castR_vsub, castR_triPoint]

/-- Claim C2, amended.  The three-branch clamp keeps `(s, t)` inside the
closed unit simplex, so `point_triangle_distance` returns the distance
from `P` to some point of the filled triangle; that value is an upper
bound on the true minimum distance (the infimum over the triangle), but
— see the counterexample — not in general equal to it. -/
theorem point_triangle_distance_upper_bound (p v0 v1 v2 : Vec3 ℚ) :
    point_triangle_distance p v0 v1 v2 ∈ triDistSet p v0 v1 v2 ∧
      sInf (triDistSet p v0 v1 v2) ≤ point_triangle_distance p v0 v1 v2 :=
  ⟨point_triangle_distance_mem p v0 v1 v2,
    csInf_le (triDistSet_bddBelow p v0 v1 v2) (point_triangle_distance_mem p v0 v1 v2)⟩

/-- Claim C2, counterexample.  For the right triangle
`{(0,0,0), (1,0,0), (0,1,0)}` (non-degenerate: its denominator is `1`)
and the in-plane sample point `P = (2, 1/2, 0)`, the rescale branch
moves the projected point along the ray from `v0` instead of projecting
onto the far edge: the shader returns `√(153/100)` although the true
closest point `(1,0,0)` lies at distance `√(5/4)`.  So
`point_triangle_distance` differs from the minimum distance to the
filled triangle, and for this point beyond the far edge it also differs
from the point-to-edge-segment distance. -/
theorem point_triangle_distance_not_min :
    ¬ |tri_denom ⟨0, 0, 0⟩ ⟨1, 0, 0⟩ ⟨0, 1, 0⟩| < epsDenom ∧
      point_triangle_distance ⟨2, 1/2, 0⟩ ⟨0, 0, 0⟩ ⟨1, 0, 0⟩ ⟨0, 1, 0⟩ ≠
        sInf (triDistSet ⟨2, 1/2, 0⟩ ⟨0, 0, 0⟩ ⟨1, 0, 0⟩ ⟨0, 1, 0⟩) := by
  constructor
  · norm_num [tri_denom, vsub, vdot, epsDenom]
  · intro heq
    have hmem : Real.sqrt (normSq (vsub (castR ⟨2, 1/2, 0⟩)
        (triPoint (castR ⟨0, 0, 0⟩) (castR ⟨1, 0, 0⟩) (castR ⟨0, 1, 0⟩) 1 0)))
        ∈ triDistSet ⟨2, 1/2, 0⟩ ⟨0, 0, 0⟩ ⟨1, 0, 0⟩ ⟨0, 1, 0⟩ :=
      ⟨1, 0, by norm_num, by norm_num, by norm_num, rfl⟩
    have hle := csInf_le (triDistSet_bddBelow _ _ _ _) hmem
    have h1 : normSq (vsub (castR ⟨2, 1/2, 0⟩)
        (triPoint (castR ⟨0, 0, 0⟩) (castR ⟨1, 0, 0⟩) (castR ⟨0, 1, 0⟩) 1 0))
        = (5/4 : ℝ) := by
      norm_num [castR, vsub, vadd, vsmul, triPoint, normSq]
    have h2 : ptDistSq ⟨2, 1/2, 0⟩ ⟨0, 0, 0⟩ ⟨1, 0, 0⟩ ⟨0, 1, 0⟩ = 153/100 := by
      norm_num [ptDistSq, vsub, vdot, vadd, vsmul, normSq, clampST, triPoint, epsDenom]
    have hlt : Real.sqrt (normSq (vsub (castR ⟨2, 1/2, 0⟩)
        (triPoint (castR ⟨0, 0, 0⟩) (castR ⟨1, 0, 0⟩) (castR ⟨0, 1, 0⟩) 1 0)))
        < point_triangle_distance ⟨2, 1/2, 0⟩ ⟨0, 0, 0⟩ ⟨1, 0, 0⟩ ⟨0, 1, 0⟩ := by
      unfold point_triangle_distance
      rw [h1, h2]
      have : ((153/100 : ℚ) : ℝ) = (153/100 : ℝ) := by norm_num
      rw [this]
      exact Real.sqrt_lt_sqrt (by norm_num) (by norm_num)
    rw [← heq] at hle
    exact absurd hlt (not_lt.mpr hle)

/-- Claim C5.  When the normal-equations denominator has magnitude below
`1e-10` (a degenerate, zero-area triangle), `point_triangle_distance`
takes the fallback branch and returns exactly the Euclidean distance
from `P` to `v0`; in the exact real-valued model the result is a
well-defined nonnegative real number (no NaN or infinity can arise). -/
theorem point_triangle_distance_degenerate (p v0 v1 v2 : Vec3 ℚ)
    (h : |tri_denom v0 v1 v2| < epsDenom) :
    point_triangle_distance p v0 v1 v2 = vdist p v0 ∧
      0 ≤ point_triangle_distance p v0 v1 v2 := by
  constructor
  · unfold point_triangle_distance vdist
    rw [ptDistSq_eq, if_pos h]
  · exact Real.sqrt_nonneg _

/-- Witness for C5: the all-zero triangle is degenerate and the kernel
returns the distance to `v0`. -/
theorem point_triangle_distance_degenerate_witness :
    |tri_denom ⟨0, 0, 0⟩ ⟨0, 0, 0⟩ ⟨0, 0, 0⟩| < epsDenom ∧
      (point_triangle_distance ⟨1, 0, 0⟩ ⟨0, 0, 0⟩ ⟨0, 0, 0⟩ ⟨0, 0, 0⟩
          = vdist ⟨1, 0, 0⟩ ⟨0, 0, 0⟩ ∧
        0 ≤ point_triangle_distance ⟨1, 0, 0⟩ ⟨0, 0, 0⟩ ⟨0, 0, 0⟩ ⟨0, 0, 0⟩) :=
  ⟨by norm_num [tri_denom, vsub, vdot, epsDenom],
    point_triangle_distance_degenerate ⟨1, 0, 0⟩ ⟨0, 0, 0⟩ ⟨0, 0, 0⟩ ⟨0, 0, 0⟩
      (by norm_num [tri_denom, vsub, vdot, epsDenom])⟩

/-! ## The minimum-tracking loop of `main` (claims C3, C6, C8) -/

theorem ptDistSq_nonneg (p v0 v1 v2 : Vec3 ℚ) : 0 ≤ ptDistSq p v0 v1 v2 := by
  rw [ptDistSq_eq]
  split_ifs
  · exact normSq_nonneg _
  · exact normSq_nonneg _

theorem voxelDistSq_nonneg (u : Uniforms) (vertices : List ℚ) (indices : List ℕ)
    (gid : ℕ × ℕ × ℕ) (i : ℕ) : 0 ≤ voxelDistSq u vertices indices gid i :=
  ptDistSq_nonneg _ _ _ _

/-- Characterization of the update loop: it either never improves on the
sentinel (then the tracked index stays `0`) or ends at the first index
attaining the minimum of the tracked squared distances. -/
theorem sdfLoop_spec (d : ℕ → ℚ) (n : ℕ) :
    ((sdfLoop d n).1 = bigSq ∧ (sdfLoop d n).2 = 0 ∧ ∀ i < n, bigSq ≤ d i) ∨
      ((sdfLoop d n).1 < bigSq ∧ (sdfLoop d n).2 < n ∧
        d (sdfLoop d n).2 = (sdfLoop d n).1 ∧
        (∀ i < n, (sdfLoop d n).1 ≤ d i) ∧
        ∀ j < (sdfLoop d n).2, (sdfLoop d n).1 < d j) := by
  induction n with
  | zero =>
    left
    exact ⟨rfl, rfl, fun i h => absurd h (Nat.not_lt_zero i)⟩
  | succ n ih =>
    by_cases hlt : d n < (sdfLoop d n).1
    · right
      have hstep : sdfLoop d (n + 1) = (d n, n) := by
        simp only [sdfLoop]
        rw [if_pos hlt]
      rw [hstep]
      rcases ih with ⟨h1, _, h3⟩ | ⟨h1, h2, h3, h4, _⟩
      · have hdn : d n < bigSq := h1 ▸ hlt
        refine ⟨hdn, Nat.lt_succ_self n, rfl, ?_, ?_⟩
        · intro i hi
          rcases Nat.lt_succ_iff_lt_or_eq.mp hi with hi2 | hi2
          · exact le_trans hdn.le (h3 i hi2)
          · rw [hi2]
        · intro j hj
          exact lt_of_lt_of_le hdn (h3 j hj)
      · have hdn : d n < bigSq := lt_trans hlt h1
        refine ⟨hdn, Nat.lt_succ_self n, rfl, ?_, ?_⟩
        · intro i hi
          rcases Nat.lt_succ_iff_lt_or_eq.mp hi with hi2 | hi2
          · exact le_trans hlt.le (h4 i hi2)
          · rw [hi2]
        · intro j hj
          exact lt_of_lt_of_le hlt (h4 j hj)
    · have hstep : sdfLoop d (n + 1) = sdfLoop d n := by
        simp only [sdfLoop]
        rw [if_neg hlt]
      rw [hstep]
      rcases ih with ⟨h1, h2, h3⟩ | ⟨h1, h2, h3, h4, h5⟩
      · left
        refine ⟨h1, h2, ?_⟩
        intro i hi
        rcases Nat.lt_succ_iff_lt_or_eq.mp hi with hi2 | hi2
        · exact h3 i hi2
        · rw [hi2]
          rw [h1] at hlt
          exact le_of_not_lt hlt
      · right
        refine ⟨h1, Nat.lt_succ_of_lt h2, h3, ?_, h5⟩
        intro i hi
        rcases Nat.lt_succ_iff_lt_or_eq.mp hi with hi2 | hi2
        · exact h4 i hi2
        · rw [hi2]
          exact le_of_not_lt hlt

theorem sdfLoop_fst_nonneg (d : ℕ → ℚ) (hd : ∀ i, 0 ≤ d i) (n : ℕ) :
    0 ≤ (sdfLoop d n).1 := by
  rcases sdfLoop_spec d n with ⟨h1, _, _⟩ | ⟨_, _, h3, _, _⟩
  · rw [h1]
    norm_num [bigSq]
  · rw [← h3]
    exact hd _

theorem sqrt_bigSq : Real.sqrt ((bigSq : ℚ) : ℝ) = (10 ^ 10 : ℝ) := by
  have h : ((bigSq : ℚ) : ℝ) = ((10 : ℝ) ^ 10) ^ 2 := by
    norm_num [bigSq]
  rw [h, Real.sqrt_sq (by positivity)]

/-- The loop over real distances simulates the executable loop over
squared distances: the square root is strictly monotone on the
nonnegative reals and the sentinel `1e10` is the root of `1e20`. -/
theorem sdfLoopR_eq (q : ℕ → ℚ) (hq : ∀ i, 0 ≤ q i) (n : ℕ) :
    sdfLoopR (fun i => Real.sqrt ((q i : ℚ) : ℝ)) n
      = (Real.sqrt (((sdfLoop q n).1 : ℚ) : ℝ), (sdfLoop q n).2) := by
  induction n with
  | zero =>
    simp only [sdfLoopR, sdfLoop]
    rw [sqrt_bigSq]
  | succ n ih =>
    simp only [sdfLoopR, sdfLoop]
    rw [ih]
    by_cases h : q n < (sdfLoop q n).1
    · have hs : Real.sqrt ((q n : ℚ) : ℝ) < Real.sqrt (((sdfLoop q n).1 : ℚ) : ℝ) :=
        Real.sqrt_lt_sqrt (by exact_mod_cast hq n) (by exact_mod_cast h)
      rw [if_pos hs, if_pos h]
    · have hs : ¬ Real.sqrt ((q n : ℚ) : ℝ) < Real.sqrt (((sdfLoop q n).1 : ℚ) : ℝ) := by
        apply not_lt.mpr
        apply Real.sqrt_le_sqrt
        exact_mod_cast not_lt.mp h
      rw [if_neg hs, if_neg h]

/-- `main` for an in-range thread, written through the executable loop:
sign of the tracked winning triangle times the square root of the
tracked squared minimum. -/
theorem mainResult_eq (u : Uniforms) (vertices : List ℚ) (indices : List ℕ)
    (gid : ℕ × ℕ × ℕ) (hg : inRange u gid) :
    mainResult u vertices indices gid =
      some (compute_sign (voxelCenter u gid)
          (get_triangle vertices indices
            (sdfLoop (voxelDistSq u vertices indices gid) (u32cast u.triangle_count)).2).1
          (get_triangle vertices indices
            (sdfLoop (voxelDistSq u vertices indices gid) (u32cast u.triangle_count)).2).2.1
          (get_triangle vertices indices
            (sdfLoop (voxelDistSq u vertices indices gid) (u32cast u.triangle_count)).2).2.2 *
        Real.sqrt
          (((sdfLoop (voxelDistSq u vertices indices gid) (u32cast u.triangle_count)).1 : ℚ) : ℝ)) := by
  obtain ⟨h1, h2, h3⟩ := hg
  unfold mainResult
  rw [if_neg (by push_neg; exact ⟨h1, h2, h3⟩)]
  rw [sdfLoopR_eq (voxelDistSq u vertices indices gid)
    (voxelDistSq_nonneg u vertices indices gid) (u32cast u.triangle_count)]

/-- Claim C3, amended.  For every in-range voxel, `main` samples the
voxel center `volume_min + (gid + 0.5) · voxelSize` (the `voxelCenter`
inside `mainResult`), iterates over all triangles tracking a running
minimum that starts at the sentinel `1e10` (squared here: `1e20`) with
winning index `0`, updating on strict improvement only — so on exact
ties the first-seen triangle wins — and writes
`sign(winning triangle) × tracked minimum`.  The tracked minimum is
`min(1e10, distance minimum)`: when every triangle is farther than
`1e10` the written magnitude is the sentinel and the winning index stays
`0` regardless of which triangle is closest. -/
theorem main_writes_sentinel_min (u : Uniforms) (vertices : List ℚ) (indices : List ℕ)
    (gid : ℕ × ℕ × ℕ) (hg : inRange u gid) :
    ∃ m w,
      mainResult u vertices indices gid =
        some (compute_sign (voxelCenter u gid)
            (get_triangle vertices indices w).1
            (get_triangle vertices indices w).2.1
            (get_triangle vertices indices w).2.2 *
          Real.sqrt ((m : ℚ) : ℝ)) ∧
      m ≤ bigSq ∧
      (∀ i < u32cast u.triangle_count, m ≤ voxelDistSq u vertices indices gid i) ∧
      (m < bigSq →
        w < u32cast u.triangle_count ∧
        voxelDistSq u vertices indices gid w = m ∧
        ∀ j < w, m < voxelDistSq u vertices indices gid j) ∧
      (bigSq ≤ m → m = bigSq ∧ w = 0) := by
  refine ⟨(sdfLoop (voxelDistSq u vertices indices gid) (u32cast u.triangle_count)).1,
    (sdfLoop (voxelDistSq u vertices indices gid) (u32cast u.triangle_count)).2,
    mainResult_eq u vertices indices gid hg, ?_, ?_, ?_, ?_⟩ <;>
    rcases sdfLoop_spec (voxelDistSq u vertices indices gid) (u32cast u.triangle_count) with
      ⟨h1, h2, h3⟩ | ⟨h1, h2, h3, h4, h5⟩
  · rw [h1]
  · exact h1.le
  · intro i hi
    rw [h1]
    exact h3 i hi
  · exact h4
  · intro hlt
    rw [h1] at hlt
    exact absurd hlt (lt_irrefl _)
  · exact fun _ => ⟨h2, h3, h5⟩
  · exact fun _ => ⟨h1, h2⟩
  · intro hge
    exact absurd h1 (not_lt.mpr hge)

/-- Witness for the amended C3 at a unit triangle inside a `1³` grid. -/
theorem main_writes_sentinel_min_witness :
    inRange farU (0, 0, 0) ∧
      (∃ m w,
        mainResult farU unitVerts farIdx (0, 0, 0) =
          some (compute_sign (voxelCenter farU (0, 0, 0))
              (get_triangle unitVerts farIdx w).1
              (get_triangle unitVerts farIdx w).2.1
              (get_triangle unitVerts farIdx w).2.2 *
            Real.sqrt ((m : ℚ) : ℝ)) ∧
        m ≤ bigSq ∧
        (∀ i < u32cast farU.triangle_count, m ≤ voxelDistSq farU unitVerts farIdx (0, 0, 0) i) ∧
        (m < bigSq →
          w < u32cast farU.triangle_count ∧
          voxelDistSq farU unitVerts farIdx (0, 0, 0) w = m ∧
          ∀ j < w, m < voxelDistSq farU unitVerts farIdx (0, 0, 0) j) ∧
        (bigSq ≤ m → m = bigSq ∧ w = 0)) :=
  ⟨by norm_num [inRange, u32cast, farU],
    main_writes_sentinel_min farU unitVerts farIdx (0, 0, 0)
      (by norm_num [inRange, u32cast, farU])⟩

/-- Claim C3, counterexample.  One triangle roughly `10^11` world units
from the single voxel's center: the loop never improves on its `1e10`
sentinel, so `main` writes `sign × 1e10` — not
`sign × (minimum distance to the triangles)`, which here exceeds
`10^11`.  The spec's description omits the sentinel cap. -/
theorem main_caps_at_sentinel_cex :
    mainResult farU farVerts farIdx (0, 0, 0) = some ((10 ^ 10 : ℝ)) ∧
      some ((10 ^ 10 : ℝ)) ≠
        some (compute_sign (voxelCenter farU (0, 0, 0))
            (get_triangle farVerts farIdx 0).1
            (get_triangle farVerts farIdx 0).2.1
            (get_triangle farVerts farIdx 0).2.2 *
          point_triangle_distance (voxelCenter farU (0, 0, 0))
            (get_triangle farVerts farIdx 0).1
            (get_triangle farVerts farIdx 0).2.1
            (get_triangle farVerts farIdx 0).2.2) := by
  have hin : inRange farU (0, 0, 0) := by norm_num [inRange, u32cast, farU]
  have hp : voxelCenter farU (0, 0, 0) = ⟨1/2, 1/2, 1/2⟩ := by
    norm_num [voxelCenter, farU, vadd, vsub, vmul, vdivs]
  have ht : get_triangle farVerts farIdx 0 =
      (⟨100000000000, 0, 0⟩, ⟨100000000001, 0, 0⟩, ⟨100000000000, 1, 0⟩) := rfl
  have hcnt : u32cast farU.triangle_count = 1 := by norm_num [u32cast, farU]
  have hd0 : voxelDistSq farU farVerts farIdx (0, 0, 0) 0 = 19999999999800000000001/2 := by
    rw [voxelDistSq, ht, hp]
    norm_num [ptDistSq, vsub, vdot, vadd, vsmul, normSq, clampST, triPoint, epsDenom]
  have hloop : sdfLoop (voxelDistSq farU farVerts farIdx (0, 0, 0)) 1 = (bigSq, 0) := by
    simp only [sdfLoop]
    rw [if_neg]
    rw [hd0]
    norm_num [bigSq]
  have hsign : compute_sign (⟨1/2, 1/2, 1/2⟩ : Vec3 ℚ)
      ⟨100000000000, 0, 0⟩ ⟨100000000001, 0, 0⟩ ⟨100000000000, 1, 0⟩ = 1 := by
    rw [compute_sign_eq_signQ]
    norm_num [signQ, ratSign, vcross, vsub, vdot, triCentroid, vadd, vdivs]
  constructor
  · rw [mainResult_eq farU farVerts farIdx (0, 0, 0) hin, hcnt, hloop]
    simp only [ht, hp]
    rw [hsign, sqrt_bigSq, one_mul]
  · simp only [ne_eq, Option.some.injEq]
    intro heq
    rw [ht, hp, hsign, one_mul] at heq
    have hgt : (10 ^ 10 : ℝ) < point_triangle_distance ⟨1/2, 1/2, 1/2⟩
        ⟨100000000000, 0, 0⟩ ⟨100000000001, 0, 0⟩ ⟨100000000000, 1, 0⟩ := by
      unfold point_triangle_distance
      have hval : ptDistSq (⟨1/2, 1/2, 1/2⟩ : Vec3 ℚ)
          ⟨100000000000, 0, 0⟩ ⟨100000000001, 0, 0⟩ ⟨100000000000, 1, 0⟩
          = 19999999999800000000001/2 := by
        norm_num [ptDistSq, vsub, vdot, vadd, vsmul, normSq, clampST, triPoint, epsDenom]
      rw [hval, ← sqrt_bigSq]
      apply Real.sqrt_lt_sqrt
      · exact_mod_cast (by norm_num [bigSq] : (0 : ℚ) ≤ bigSq)
      · exact_mod_cast (by norm_num [bigSq] : bigSq < (19999999999800000000001/2 : ℚ))
    rw [← heq] at hgt
    exact absurd hgt (lt_irrefl _)

/-- Claim C6, amended.  The sign contribution is
`sign(dot(n, P - c))` with `n` the normalized cross product of the edge
vectors and `c` the centroid (first conjunct), and the sign `main`
applies to a voxel's output is the one evaluated against the winning
triangle of the tracked minimum: that triangle is the globally closest
one (first seen on exact ties) whenever some triangle lies within the
loop's `1e10` sentinel — the hypothesis `hnear`; when every triangle is
beyond the sentinel the sign instead comes from triangle `0` (see the
counterexample). -/
theorem main_sign_from_closest (u : Uniforms) (vertices : List ℚ) (indices : List ℕ)
    (gid : ℕ × ℕ × ℕ) (hg : inRange u gid)
    (hnear : ∃ i, i < u32cast u.triangle_count ∧
      voxelDistSq u vertices indices gid i < bigSq) :
    (∀ a b c d : Vec3 ℚ, compute_sign a b c d =
      wgslSign (vdot (triangle_normal b c d) (castR (vsub a (triCentroid b c d))))) ∧
    ∃ w, w < u32cast u.triangle_count ∧
      (∀ i < u32cast u.triangle_count,
        voxelDistSq u vertices indices gid w ≤ voxelDistSq u vertices indices gid i) ∧
      (∀ j < w, voxelDistSq u vertices indices gid w < voxelDistSq u vertices indices gid j) ∧
      mainResult u vertices indices gid =
        some (compute_sign (voxelCenter u gid)
            (get_triangle vertices indices w).1
            (get_triangle vertices indices w).2.1
            (get_triangle vertices indices w).2.2 *
          Real.sqrt ((voxelDistSq u vertices indices gid w : ℚ) : ℝ)) := by
  constructor
  · intro a b c d
    rfl
  · rcases sdfLoop_spec (voxelDistSq u vertices indices gid) (u32cast u.triangle_count) with
      ⟨_, _, h3⟩ | ⟨_, h2, h3, h4, h5⟩
    · obtain ⟨i, hi, hlt⟩ := hnear
      exact absurd hlt (not_lt.mpr (h3 i hi))
    · refine ⟨(sdfLoop (voxelDistSq u vertices indices gid) (u32cast u.triangle_count)).2,
        h2, ?_, ?_, ?_⟩
      · intro i hi
        rw [h3]
        exact h4 i hi
      · intro j hj
        rw [h3]
        exact h5 j hj
      · rw [h3]
        exact mainResult_eq u vertices indices gid hg

/-- Witness for the amended C6 at a unit triangle inside a `1³` grid. -/
theorem main_sign_from_closest_witness :
    inRange farU (0, 0, 0) ∧
      (∃ i, i < u32cast farU.triangle_count ∧
        voxelDistSq farU unitVerts farIdx (0, 0, 0) i < bigSq) ∧
      ((∀ a b c d : Vec3 ℚ, compute_sign a b c d =
        wgslSign (vdot (triangle_normal b c d) (castR (vsub a (triCentroid b c d))))) ∧
      ∃ w, w < u32cast farU.triangle_count ∧
        (∀ i < u32cast farU.triangle_count,
          voxelDistSq farU unitVerts farIdx (0, 0, 0) w ≤
            voxelDistSq farU unitVerts farIdx (0, 0, 0) i) ∧
        (∀ j < w, voxelDistSq farU unitVerts farIdx (0, 0, 0) w <
          voxelDistSq farU unitVerts farIdx (0, 0, 0) j) ∧
        mainResult farU unitVerts farIdx (0, 0, 0) =
          some (compute_sign (voxelCenter farU (0, 0, 0))
              (get_triangle unitVerts farIdx w).1
              (get_triangle unitVerts farIdx w).2.1
              (get_triangle unitVerts farIdx w).2.2 *
            Real.sqrt ((voxelDistSq farU unitVerts farIdx (0, 0, 0) w : ℚ) : ℝ))) := by
  have hg : inRange farU (0, 0, 0) := by norm_num [inRange, u32cast, farU]
  have hnear : ∃ i, i < u32cast farU.triangle_count ∧
      voxelDistSq farU unitVerts farIdx (0, 0, 0) i < bigSq := by
    refine ⟨0, by norm_num [u32cast, farU], ?_⟩
    have h14 : voxelDistSq farU unitVerts farIdx (0, 0, 0) 0 = 1/4 := by
      have hp : voxelCenter farU (0, 0, 0) = ⟨1/2, 1/2, 1/2⟩ := by
        norm_num [voxelCenter, farU, vadd, vsub, vmul, vdivs]
      have ht : get_triangle unitVerts farIdx 0 = (⟨0, 0, 0⟩, ⟨1, 0, 0⟩, ⟨0, 1, 0⟩) := rfl
      rw [voxelDistSq, ht, hp]
      norm_num [ptDistSq, vsub, vdot, vadd, vsmul, normSq, clampST, triPoint, epsDenom]
    rw [h14]
    norm_num [bigSq]
  exact ⟨hg, hnear, main_sign_from_closest farU unitVerts farIdx (0, 0, 0) hg hnear⟩

/-- Claim C6, counterexample.  Two triangles, both beyond the `1e10`
sentinel, the second strictly closer and wound so that its sign
contribution is `-1`: the loop never updates, so `main` takes the sign
from triangle `0` (giving `+1e10`), not from the globally closest
triangle `1`, whose sign-times-distance value is negative. -/
theorem main_sign_not_from_closest_cex :
    voxelDistSq farU2 farVerts2 farIdx2 (0, 0, 0) 1 <
        voxelDistSq farU2 farVerts2 farIdx2 (0, 0, 0) 0 ∧
      mainResult farU2 farVerts2 farIdx2 (0, 0, 0) = some ((10 ^ 10 : ℝ)) ∧
      some ((10 ^ 10 : ℝ)) ≠
        some (compute_sign (voxelCenter farU2 (0, 0, 0))
            (get_triangle farVerts2 farIdx2 1).1
            (get_triangle farVerts2 farIdx2 1).2.1
            (get_triangle farVerts2 farIdx2 1).2.2 *
          point_triangle_distance (voxelCenter farU2 (0, 0, 0))
            (get_triangle farVerts2 farIdx2 1).1
            (get_triangle farVerts2 farIdx2 1).2.1
            (get_triangle farVerts2 farIdx2 1).2.2) := by
  have hin : inRange farU2 (0, 0, 0) := by norm_num [inRange, u32cast, farU2]
  have hp : voxelCenter farU2 (0, 0, 0) = ⟨1/2, 1/2, 1/2⟩ := by
    norm_num [voxelCenter, farU2, vadd, vsub, vmul, vdivs]
  have ht0 : get_triangle farVerts2 farIdx2 0 =
      (⟨100000000000, 0, 0⟩, ⟨100000000001, 0, 0⟩, ⟨100000000000, 1, 0⟩) := rfl
  have ht1 : get_triangle farVerts2 farIdx2 1 =
      (⟨50000000000, 0, 0⟩, ⟨50000000000, 1, 0⟩, ⟨50000000001, 0, 0⟩) := rfl
  have hcnt : u32cast farU2.triangle_count = 2 := by
    norm_num [u32cast, farU2]
    decide
  have hd0 : voxelDistSq farU2 farVerts2 farIdx2 (0, 0, 0) 0
      = 19999999999800000000001/2 := by
    rw [voxelDistSq, ht0, hp]
    norm_num [ptDistSq, vsub, vdot, vadd, vsmul, normSq, clampST, triPoint, epsDenom]
  have hd1 : voxelDistSq farU2 farVerts2 farIdx2 (0, 0, 0) 1
      = 4999999999900000000001/2 := by
    rw [voxelDistSq, ht1, hp]
    norm_num [ptDistSq, vsub, vdot, vadd, vsmul, normSq, clampST, triPoint, epsDenom]
  have hl1 : sdfLoop (voxelDistSq farU2 farVerts2 farIdx2 (0, 0, 0)) 1 = (bigSq, 0) := by
    simp only [sdfLoop]
    rw [if_neg]
    rw [hd0]
    norm_num [bigSq]
  have hl2 : sdfLoop (voxelDistSq farU2 farVerts2 farIdx2 (0, 0, 0)) 2 = (bigSq, 0) := by
    have hstep : sdfLoop (voxelDistSq farU2 farVerts2 farIdx2 (0, 0, 0)) 2 =
        if voxelDistSq farU2 farVerts2 farIdx2 (0, 0, 0) 1 <
            (sdfLoop (voxelDistSq farU2 farVerts2 farIdx2 (0, 0, 0)) 1).1 then
          (voxelDistSq farU2 farVerts2 farIdx2 (0, 0, 0) 1, 1)
        else sdfLoop (voxelDistSq farU2 farVerts2 farIdx2 (0, 0, 0)) 1 := rfl
    rw [hstep, hl1]
    rw [if_neg]
    rw [hd1]
    norm_num [bigSq]
  have hsign0 : compute_sign (⟨1/2, 1/2, 1/2⟩ : Vec3 ℚ)
      ⟨100000000000, 0, 0⟩ ⟨100000000001, 0, 0⟩ ⟨100000000000, 1, 0⟩ = 1 := by
    rw [compute_sign_eq_signQ]
    norm_num [signQ, ratSign, vcross, vsub, vdot, triCentroid, vadd, vdivs]
  have hsign1 : compute_sign (⟨1/2, 1/2, 1/2⟩ : Vec3 ℚ)
      ⟨50000000000, 0, 0⟩ ⟨50000000000, 1, 0⟩ ⟨50000000001, 0, 0⟩ = -1 := by
    rw [compute_sign_eq_signQ]
    norm_num [signQ, ratSign, vcross, vsub, vdot, triCentroid, vadd, vdivs]
  refine ⟨?_, ?_, ?_⟩
  · rw [hd0, hd1]
    norm_num
  · rw [mainResult_eq farU2 farVerts2 farIdx2 (0, 0, 0) hin, hcnt, hl2]
    simp only [ht0, hp]
    rw [hsign0, sqrt_bigSq, one_mul]
  · simp only [ne_eq, Option.some.injEq]
    intro heq
    rw [ht1, hp, hsign1] at heq
    have hnn : 0 ≤ point_triangle_distance ⟨1/2, 1/2, 1/2⟩
        ⟨50000000000, 0, 0⟩ ⟨50000000000, 1, 0⟩ ⟨50000000001, 0, 0⟩ :=
      Real.sqrt_nonneg _
    have hpos : (0 : ℝ) < 10 ^ 10 := by positivity
    nlinarith [heq, hnn, hpos]

/-! ## Dispatch determinism (claim C8) -/

theorem runDispatch_not_mem (u : Uniforms) (vertices : List ℚ) (indices : List ℕ)
    (order : List (ℕ × ℕ × ℕ)) (grid : ℕ × ℕ × ℕ → ℝ) (g : ℕ × ℕ × ℕ)
    (hg : g ∉ order) : runDispatch u vertices indices order grid g = grid g := by
  induction order generalizing grid with
  | nil => rfl
  | cons o rest ih =>
    simp only [runDispatch]
    rw [ih _ fun hmem => hg (List.mem_cons_of_mem o hmem)]
    have hne : g ≠ o := fun h => hg (h ▸ List.mem_cons_self o rest)
    unfold writeVoxel
    rcases hr : mainResult u vertices indices o with _ | v
    · rfl
    · simp only [if_neg hne]

theorem runDispatch_mem (u : Uniforms) (vertices : List ℚ) (indices : List ℕ)
    (order : List (ℕ × ℕ × ℕ)) (grid : ℕ × ℕ × ℕ → ℝ) (g : ℕ × ℕ × ℕ) (v : ℝ)
    (hv : mainResult u vertices indices g = some v) (hmem : g ∈ order) :
    runDispatch u vertices indices order grid g = v := by
  induction order generalizing grid with
  | nil => exact absurd hmem (List.not_mem_nil g)
  | cons o rest ih =>
    simp only [runDispatch]
    by_cases hr : g ∈ rest
    · exact ih _ hr
    · have hgo : g = o := by
        rcases List.mem_cons.mp hmem with h | h
        · exact h
        · exact absurd h hr
      subst hgo
      rw [runDispatch_not_mem u vertices indices rest _ g hr]
      unfold writeVoxel
      rw [hv]
      simp

/-- Claim C8.  Whatever order (or duplication) the execution units
process voxels in, as long as every in-range voxel is covered, the
resulting grid values agree — even starting from different initial grid
contents: each in-range voxel's value is the pure per-voxel function
`mainResult` of the mesh arrays and the uniforms alone, written by its
own thread only. -/
theorem dispatch_order_independent (u : Uniforms) (vertices : List ℚ) (indices : List ℕ)
    (order1 order2 : List (ℕ × ℕ × ℕ)) (grid1 grid2 : ℕ × ℕ × ℕ → ℝ)
    (h1 : ∀ g, inRange u g → g ∈ order1) (h2 : ∀ g, inRange u g → g ∈ order2)
    (g : ℕ × ℕ × ℕ) (hg : inRange u g) :
    runDispatch u vertices indices order1 grid1 g =
      runDispatch u vertices indices order2 grid2 g := by
  obtain ⟨v, hv⟩ : ∃ v, mainResult u vertices indices g = some v :=
    ⟨_, mainResult_eq u vertices indices g hg⟩
  rw [runDispatch_mem u vertices indices order1 grid1 g v hv (h1 g hg),
    runDispatch_mem u vertices indices order2 grid2 g v hv (h2 g hg)]

/-- Witness for C8: a `1³` grid dispatched once, against the same voxel
dispatched twice from a different initial grid. -/
theorem dispatch_order_independent_witness :
    inRange farU (0, 0, 0) ∧
      runDispatch farU unitVerts farIdx [(0, 0, 0)] (fun _ => 0) (0, 0, 0) =
        runDispatch farU unitVerts farIdx [(0, 0, 0), (0, 0, 0)] (fun _ => 37) (0, 0, 0) := by
  have hres : u32cast farU.resolution = 1 := by norm_num [u32cast, farU]
  have hcov : ∀ g, inRange farU g → g ∈ ([(0, 0, 0)] : List (ℕ × ℕ × ℕ)) := by
    rintro ⟨a, b, c⟩ hg
    rw [inRange, hres] at hg
    obtain ⟨ha, hb, hc⟩ := hg
    have ha0 : a = 0 := Nat.lt_one_iff.mp ha
    have hb0 : b = 0 := Nat.lt_one_iff.mp hb
    have hc0 : c = 0 := Nat.lt_one_iff.mp hc
    subst ha0; subst hb0; subst hc0
    simp
  have hcov2 : ∀ g, inRange farU g → g ∈ ([(0, 0, 0), (0, 0, 0)] : List (ℕ × ℕ × ℕ)) := by
    intro g hg
    exact List.mem_cons_of_mem _ (hcov g hg)
  exact ⟨by norm_num [inRange, u32cast, farU],
    dispatch_order_independent farU unitVerts farIdx [(0, 0, 0)] [(0, 0, 0), (0, 0, 0)]
      (fun _ => 0) (fun _ => 37) hcov hcov2 (0, 0, 0)
      (by norm_num [inRange, u32cast, farU])⟩

/-! ## The sampling volume (claim C4) -/

/-- Claim C4.  The sampling volume is the cube centered at the midpoint
of the mesh bounds whose extent on every axis is `2 · halfExtent`, with
`halfExtent = maxExtent · (1 + padding) / 2` for `maxExtent` the largest
axis extent of the mesh bounds; and the returned voxel size is
`2 · halfExtent / resolution`. -/
theorem volume_bounds_cube (meshBounds : BBox) (padding resolution : ℚ)
    (hpad : 0 ≤ padding) :
    (boundsSize (volumeBoundsOf meshBounds padding)).x = 2 * halfExtentOf meshBounds padding ∧
    (boundsSize (volumeBoundsOf meshBounds padding)).y = 2 * halfExtentOf meshBounds padding ∧
    (boundsSize (volumeBoundsOf meshBounds padding)).z = 2 * halfExtentOf meshBounds padding ∧
    boundsCenter (volumeBoundsOf meshBounds padding) = boundsCenter meshBounds ∧
    halfExtentOf meshBounds padding = maxExtentOf meshBounds * (1 + padding) / 2 ∧
    voxelSizeOf meshBounds padding resolution =
      2 * halfExtentOf meshBounds padding / resolution := by
  refine ⟨?_, ?_, ?_, ?_, rfl, ?_⟩
  · simp only [volumeBoundsOf, boundsSize]
    ring
  · simp only [volumeBoundsOf, boundsSize]
    ring
  · simp only [volumeBoundsOf, boundsSize]
    ring
  · simp only [volumeBoundsOf, boundsCenter]
    obtain ⟨⟨ax, ay, az⟩, ⟨bx, by2, bz⟩⟩ := meshBounds
    simp only [Vec3.mk.injEq]
    refine ⟨?_, ?_, ?_⟩ <;> ring
  · unfold voxelSizeOf
    ring

/-- Witness for C4 at a concrete non-cubical bounding box. -/
theorem volume_bounds_cube_witness :
    (0 : ℚ) ≤ 1/10 ∧
      ((boundsSize (volumeBoundsOf ⟨⟨0, 0, 0⟩, ⟨2, 1, 1⟩⟩ (1/10))).x =
          2 * halfExtentOf ⟨⟨0, 0, 0⟩, ⟨2, 1, 1⟩⟩ (1/10) ∧
        (boundsSize (volumeBoundsOf ⟨⟨0, 0, 0⟩, ⟨2, 1, 1⟩⟩ (1/10))).y =
          2 * halfExtentOf ⟨⟨0, 0, 0⟩, ⟨2, 1, 1⟩⟩ (1/10) ∧
        (boundsSize (volumeBoundsOf ⟨⟨0, 0, 0⟩, ⟨2, 1, 1⟩⟩ (1/10))).z =
          2 * halfExtentOf ⟨⟨0, 0, 0⟩, ⟨2, 1, 1⟩⟩ (1/10) ∧
        boundsCenter (volumeBoundsOf ⟨⟨0, 0, 0⟩, ⟨2, 1, 1⟩⟩ (1/10)) =
          boundsCenter ⟨⟨0, 0, 0⟩, ⟨2, 1, 1⟩⟩ ∧
        halfExtentOf ⟨⟨0, 0, 0⟩, ⟨2, 1, 1⟩⟩ (1/10) =
          maxExtentOf ⟨⟨0, 0, 0⟩, ⟨2, 1, 1⟩⟩ * (1 + 1/10) / 2 ∧
        voxelSizeOf ⟨⟨0, 0, 0⟩, ⟨2, 1, 1⟩⟩ (1/10) 4 =
          2 * halfExtentOf ⟨⟨0, 0, 0⟩, ⟨2, 1, 1⟩⟩ (1/10) / 4) :=
  ⟨by norm_num, volume_bounds_cube ⟨⟨0, 0, 0⟩, ⟨2, 1, 1⟩⟩ (1/10) 4 (by norm_num)⟩

/-! ## Missing validation and missing cleanup (claims C1 and C7) -/

/-- Claim C1 names a validation `computeDistanceField` does not have:
the function body contains no branch on the resolution or on the mesh
size.  Evaluated at the claim's own failing inputs — `resolution = 0`,
and a mesh with zero vertices and zero triangles — the run allocates its
texture and buffers and returns a descriptor; no `InvalidConfig` or
`EmptyMesh` failure exists, and nothing is rejected before resource
allocation. -/
theorem computeDistanceField_never_validates :
    ((computeDistanceFieldRun emptyMesh ⟨some 0, none⟩ true).2.isSome = true ∧
      GpuOp.createTexture (0, 0, 0) ∈ (computeDistanceFieldRun emptyMesh ⟨some 0, none⟩ true).1) ∧
    ((computeDistanceFieldRun emptyMesh ⟨none, none⟩ true).2.isSome = true ∧
      allocates (computeDistanceFieldRun emptyMesh ⟨none, none⟩ true).1 = true) := by
  refine ⟨⟨rfl, ?_⟩, rfl, rfl⟩
  exact List.mem_append_left _ (List.mem_cons_self _ _)

/-- Claim C7: the three transient buffers are destroyed only by the
straight-line statements after the `await`; on the success path all
three are released, but when the awaited dispatch fails (the model's
`awaitOk = false`, e.g. device loss) the function exits with all three
still allocated — the source has no `try`/`finally` around the
allocate→dispatch→await→release sequence. -/
theorem computeDistanceField_leaks_on_failure :
    ((computeDistanceFieldRun meshTri ⟨none, none⟩ false).2 = none ∧
      countBufferCreates (computeDistanceFieldRun meshTri ⟨none, none⟩ false).1 = 3 ∧
      countBufferDestroys (computeDistanceFieldRun meshTri ⟨none, none⟩ false).1 = 0) ∧
    (countBufferCreates (computeDistanceFieldRun meshTri ⟨none, none⟩ true).1 = 3 ∧
      countBufferDestroys (computeDistanceFieldRun meshTri ⟨none, none⟩ true).1 = 3) :=
  ⟨⟨rfl, rfl, rfl⟩, rfl, rfl⟩

/-! ## The OBJ parser's mesh invariant (claim C9) -/

theorem parseFaceIndex_lt (tok : List Char) (vertexCount lineNum : ℕ) (i : ℕ)
    (h : parseFaceIndex tok vertexCount lineNum = .ok i) : i < vertexCount := by
  unfold parseFaceIndex at h
  split at h
  next => exact Except.noConfusion h
  next index heq =>
    split_ifs at h with h1 h2 h3 h4 <;>
      first
        | exact Except.noConfusion h
        | (rw [Except.ok.injEq] at h
           subst h
           omega)

theorem parseFaceIndices_lt (toks : List (List Char)) (vertexCount lineNum : ℕ)
    (l : List ℕ) (h : parseFaceIndices toks vertexCount lineNum = .ok l) :
    ∀ i ∈ l, i < vertexCount := by
  induction toks generalizing l with
  | nil =>
    rw [parseFaceIndices, Except.ok.injEq] at h
    subst h
    intro i hi
    exact absurd hi (List.not_mem_nil i)
  | cons t ts ih =>
    rw [parseFaceIndices] at h
    split at h
    next => exact Except.noConfusion h
    next i0 heq1 =>
      split at h
      next => exact Except.noConfusion h
      next restL heq2 =>
        rw [Except.ok.injEq] at h
        subst h
        intro x hx
        rcases List.mem_cons.mp hx with hx | hx
        · exact hx ▸ parseFaceIndex_lt t vertexCount lineNum i0 heq1
        · exact ih restL heq2 x hx

theorem fanFrom_mem (f0 : ℕ) : ∀ (l : List ℕ) (x : ℕ), x ∈ fanFrom f0 l → x = f0 ∨ x ∈ l
  | [], x, h => by simp [fanFrom] at h
  | [b], x, h => by simp [fanFrom] at h
  | b :: c :: rest, x, h => by
    simp only [fanFrom, List.mem_cons] at h
    rcases h with h | h | h | h
    · exact Or.inl h
    · exact Or.inr (by simp [h])
    · exact Or.inr (by simp [h])
    · rcases fanFrom_mem f0 (c :: rest) x h with h2 | h2
      · exact Or.inl h2
      · exact Or.inr (List.mem_cons_of_mem b h2)

theorem fanFrom_length (f0 : ℕ) : ∀ l : List ℕ, (fanFrom f0 l).length % 3 = 0
  | [] => by simp [fanFrom]
  | [b] => by simp [fanFrom]
  | b :: c :: rest => by
    have ih := fanFrom_length f0 (c :: rest)
    simp only [fanFrom, List.length_cons] at ih ⊢
    omega

theorem parseFace_spec (parts : List (List Char)) (indices : List ℕ) (vertexCount lineNum : ℕ)
    (indices2 : List ℕ) (h : parseFace parts indices vertexCount lineNum = .ok indices2) :
    (∀ x ∈ indices2, x ∈ indices ∨ x < vertexCount) ∧
      indices2.length % 3 = indices.length % 3 := by
  unfold parseFace at h
  by_cases hp : parts.length < 4
  · rw [if_pos hp] at h
    exact Except.noConfusion h
  · rw [if_neg hp] at h
    split at h
    next => exact Except.noConfusion h
    next f0 rest heq =>
      have hmem := parseFaceIndices_lt (parts.drop 1) vertexCount lineNum (f0 :: rest) heq
      rw [Except.ok.injEq] at h
      subst h
      constructor
      · intro x hx
        rcases List.mem_append.mp hx with hx | hx
        · exact Or.inl hx
        · rcases fanFrom_mem f0 rest x hx with h2 | h2
          · exact Or.inr (h2 ▸ hmem f0 (List.mem_cons_self f0 rest))
          · exact Or.inr (hmem x (List.mem_cons_of_mem f0 h2))
      · have := fanFrom_length f0 rest
        rw [List.length_append]
        omega
    next heq =>
      rw [Except.ok.injEq] at h
      subst h
      exact ⟨fun x hx => Or.inl hx, rfl⟩

theorem parseVertex_length (parts : List (List Char)) (vertices : List ℚ) (lineNum : ℕ)
    (vertices2 : List ℚ) (h : parseVertex parts vertices lineNum = .ok vertices2) :
    vertices2.length = vertices.length + 3 := by
  unfold parseVertex at h
  by_cases hp : parts.length < 4
  · rw [if_pos hp] at h
    exact Except.noConfusion h
  · rw [if_neg hp] at h
    split at h
    next x y z =>
      rw [Except.ok.injEq] at h
      subst h
      simp
    next => exact Except.noConfusion h

/-- Invariant of the line loop: if every index so far is below a third
of the vertex-scalar count and the index count is a multiple of three,
the same holds of the final parse state. -/
theorem parseLines_inv (lines : List (List Char)) (lineNum : ℕ) (vertices : List ℚ)
    (indices : List ℕ) (r : ParsedOBJ)
    (hmem : ∀ x ∈ indices, x < vertices.length / 3)
    (hlen : indices.length % 3 = 0)
    (h : parseLines lines lineNum vertices indices = .ok r) :
    (∀ x ∈ r.indices, x < r.vertices.length / 3) ∧ r.indices.length % 3 = 0 := by
  induction lines generalizing lineNum vertices indices with
  | nil =>
    rw [parseLines, Except.ok.injEq] at h
    subst h
    exact ⟨hmem, hlen⟩
  | cons l rest ih =>
    rw [parseLines] at h
    dsimp only at h
    split_ifs at h with hskip hv hf
    · exact ih _ _ _ hmem hlen h
    · split at h
      next => exact Except.noConfusion h
      next vertices2 heq =>
        have hlen2 := parseVertex_length _ _ _ _ heq
        refine ih _ _ _ ?_ hlen h
        intro x hx
        calc x < vertices.length / 3 := hmem x hx
          _ ≤ vertices2.length / 3 := Nat.div_le_div_right (by omega)
    · split at h
      next => exact Except.noConfusion h
      next indices2 heq =>
        obtain ⟨hmem2, hlen2⟩ := parseFace_spec _ _ _ _ _ heq
        refine ih _ _ _ ?_ (by omega) h
        intro x hx
        rcases hmem2 x hx with h2 | h2
        · exact hmem x h2
        · exact h2
    · exact ih _ _ _ hmem hlen h

/-- Claim C9.  Every mesh `parseOBJ` returns satisfies the `Mesh`
invariant: every triangle index is strictly below the vertex count
(`vertices.length / 3` — out-of-range, zero and unresolvable negative
indices having been rejected during parsing), the flat index list's
length is a multiple of three, and the stored `triangleCount` equals
`indices.length / 3`. -/
theorem parseOBJ_mesh_invariant (content : String) (m : Mesh)
    (h : parseOBJ content = .ok m) :
    (∀ i ∈ m.indices, i < m.vertices.length / 3) ∧
      m.indices.length % 3 = 0 ∧
      m.triangleCount = m.indices.length / 3 := by
  unfold parseOBJ at h
  split at h
  next => exact Except.noConfusion h
  next parsed heq =>
    split_ifs at h with h1 h2 <;>
      first
        | exact Except.noConfusion h
        | (rw [Except.ok.injEq] at h
           subst h
           unfold parseOBJContent at heq
           obtain ⟨hmem, hlen⟩ := parseLines_inv _ _ _ _ _
             (fun x hx => absurd hx (List.not_mem_nil x)) rfl heq
           exact ⟨hmem, hlen, rfl⟩)

/-- Witness for C9: the sample OBJ file parses to `objSampleMesh`, whose
indices satisfy the invariant. -/
theorem parseOBJ_mesh_invariant_witness :
    parseOBJ objSample = .ok objSampleMesh ∧
      ((∀ i ∈ objSampleMesh.indices, i < objSampleMesh.vertices.length / 3) ∧
        objSampleMesh.indices.length % 3 = 0 ∧
        objSampleMesh.triangleCount = objSampleMesh.indices.length / 3) := by
  have h1 : parseOBJ objSample = .ok objSampleMesh := by
    have hc : parseOBJContent objSample = .ok ⟨[0, 0, 0, 1, 0, 0, 0, 1, 0], [0, 1, 2]⟩ := rfl
    unfold parseOBJ
    rw [hc]
    norm_num [objSampleMesh]
    simp [computeBounds, boundsLoop]
  exact ⟨h1, parseOBJ_mesh_invariant objSample objSampleMesh h1⟩

/-! ## `computeBounds` (claim C10) -/

theorem drop_getD_cons (vs : List ℚ) (i : ℕ) (h : i < vs.length) :
    vs.drop i = vs.getD i 0 :: vs.drop (i + 1) := by
  induction vs generalizing i with
  | nil => simp at h
  | cons v rest ih =>
    cases i with
    | zero => simp [List.getD]
    | succ n =>
      simp only [List.drop_succ_cons, List.getD_cons_succ]
      exact ih n (by simpa using h)

theorem boundsLoop_stop (vs : List ℚ) (i : ℕ) (h : vs.length ≤ i) (mn mx : Vec3 ℚ) :
    boundsLoop vs i mn mx = ⟨mn, mx⟩ := by
  rw [boundsLoop]
  rw [dif_neg (not_lt.mpr h)]

/-- The indexed stride-3 loop of `computeBounds` computes the same box
as the structural fold over the vertex triples of the remaining list. -/
theorem boundsLoop_eq_fold (vs : List ℚ) (k : ℕ) :
    ∀ i, vs.length - i ≤ k → 3 ∣ (vs.length - i) →
      ∀ mn mx, boundsLoop vs i mn mx = boundsFold (vtriples (vs.drop i)) mn mx := by
  induction k with
  | zero =>
    intro i hle _ mn mx
    have h : vs.length ≤ i := by omega
    rw [boundsLoop_stop vs i h, List.drop_eq_nil_of_le h]
    rfl
  | succ k ih =>
    intro i hle hdvd mn mx
    by_cases hlt : i < vs.length
    · have h3 : 3 ≤ vs.length - i := Nat.le_of_dvd (by omega) hdvd
      have hi2 : i + 1 < vs.length := by omega
      have hi3 : i + 2 < vs.length := by omega
      have hdvd3 : 3 ∣ (vs.length - (i + 3)) := by
        have heq : vs.length - (i + 3) = (vs.length - i) - 3 := by omega
        rw [heq]
        exact Nat.dvd_sub' hdvd (dvd_refl 3)
      rw [boundsLoop, dif_pos hlt]
      rw [ih (i + 3) (by omega) hdvd3]
      have hdrop : vs.drop i =
          vs.getD i 0 :: vs.getD (i + 1) 0 :: vs.getD (i + 2) 0 :: vs.drop (i + 3) := by
        rw [drop_getD_cons vs i hlt, drop_getD_cons vs (i + 1) hi2,
          drop_getD_cons vs (i + 2) hi3]
      rw [hdrop]
      simp only [vtriples, boundsFold]
    · rw [boundsLoop_stop vs i (le_of_not_lt hlt),
        List.drop_eq_nil_of_le (le_of_not_lt hlt)]
      rfl

theorem boundsFold_eq (ts : List (Vec3 ℚ)) (mn mx : Vec3 ℚ) :
    boundsFold ts mn mx =
      ⟨⟨(ts.map fun v => v.x).foldl min mn.x, (ts.map fun v => v.y).foldl min mn.y,
        (ts.map fun v => v.z).foldl min mn.z⟩,
       ⟨(ts.map fun v => v.x).foldl max mx.x, (ts.map fun v => v.y).foldl max mx.y,
        (ts.map fun v => v.z).foldl max mx.z⟩⟩ := by
  induction ts generalizing mn mx with
  | nil => rfl
  | cons v rest ih => simp only [boundsFold, List.map_cons, List.foldl_cons, ih]

theorem foldl_min_le_init (l : List ℚ) (a : ℚ) : l.foldl min a ≤ a := by
  induction l generalizing a with
  | nil => exact le_refl a
  | cons x xs ih => exact le_trans (ih (min a x)) (min_le_left a x)

theorem foldl_min_le_mem (l : List ℚ) : ∀ (a b : ℚ), b ∈ l → l.foldl min a ≤ b := by
  induction l with
  | nil =>
    intro a b hb
    exact absurd hb (List.not_mem_nil b)
  | cons x xs ih =>
    intro a b hb
    rcases List.mem_cons.mp hb with h | h
    · subst h
      calc List.foldl min a (b :: xs) = List.foldl min (min a b) xs := rfl
        _ ≤ min a b := foldl_min_le_init xs (min a b)
        _ ≤ b := min_le_right a b
    · calc List.foldl min a (x :: xs) = List.foldl min (min a x) xs := rfl
        _ ≤ b := ih (min a x) b h

theorem init_le_foldl_max (l : List ℚ) (a : ℚ) : a ≤ l.foldl max a := by
  induction l generalizing a with
  | nil => exact le_refl a
  | cons x xs ih => exact le_trans (le_max_left a x) (ih (max a x))

theorem mem_le_foldl_max (l : List ℚ) : ∀ (a b : ℚ), b ∈ l → b ≤ l.foldl max a := by
  induction l with
  | nil =>
    intro a b hb
    exact absurd hb (List.not_mem_nil b)
  | cons x xs ih =>
    intro a b hb
    rcases List.mem_cons.mp hb with h | h
    · subst h
      calc b ≤ max a b := le_max_right a b
        _ ≤ List.foldl max (max a b) xs := init_le_foldl_max xs (max a b)
        _ = List.foldl max a (b :: xs) := rfl
    · calc b ≤ List.foldl max (max a x) xs := ih (max a x) b h
        _ = List.foldl max a (x :: xs) := rfl

theorem foldl_min_le_foldl_max (l : List ℚ) (a b : ℚ) (h : a ≤ b) :
    l.foldl min a ≤ l.foldl max b := by
  induction l generalizing a b with
  | nil => exact h
  | cons x xs ih =>
    exact ih (min a x) (max b x)
      (le_trans (min_le_left a x) (le_trans h (le_max_left b x)))

theorem vtriples_cons_length (vs : List ℚ) (v0 : Vec3 ℚ) (rest : List (Vec3 ℚ))
    (h : vtriples vs = v0 :: rest) : 3 ≤ vs.length := by
  rcases vs with _ | ⟨x, _ | ⟨y, _ | ⟨z, r⟩⟩⟩ <;> simp [vtriples] at h ⊢

/-- With three or more scalars in a well-formed array, `computeBounds`
folds componentwise minima and maxima from the first vertex over the
remaining triples. -/
theorem computeBounds_eq_fold (vertices : List ℚ) (v0 : Vec3 ℚ) (rest : List (Vec3 ℚ))
    (hmod : vertices.length % 3 = 0) (hv : vtriples vertices = v0 :: rest) :
    computeBounds vertices = boundsFold rest v0 v0 := by
  rcases vertices with _ | ⟨x, _ | ⟨y, _ | ⟨z, r⟩⟩⟩
  · exact absurd hv (by simp [vtriples])
  · exact absurd hv (by simp [vtriples])
  · exact absurd hv (by simp [vtriples])
  · simp only [vtriples, List.cons.injEq] at hv
    obtain ⟨hv0, hrest⟩ := hv
    subst hv0
    subst hrest
    unfold computeBounds
    rw [if_neg (by simp)]
    have hlen : (x :: y :: z :: r).length = r.length + 3 := by simp
    have hdvd : 3 ∣ ((x :: y :: z :: r).length - 3) := by
      apply Nat.dvd_of_mod_eq_zero
      omega
    rw [boundsLoop_eq_fold (x :: y :: z :: r) (x :: y :: z :: r).length 3 (by omega) hdvd]
    simp [List.getD, vtriples]

/-- Claim C10.  `computeBounds` returns the degenerate all-zero box for
fewer than three scalars; for a non-empty well-formed array it returns
the componentwise minimum and maximum over all vertices (folds starting
at the first vertex), every vertex lies inside the returned box, and in
both cases the box satisfies `min ≤ max` componentwise. -/
theorem computeBounds_spec (vertices : List ℚ) :
    (vertices.length < 3 → computeBounds vertices = ⟨⟨0, 0, 0⟩, ⟨0, 0, 0⟩⟩) ∧
    (∀ v0 rest, vertices.length % 3 = 0 → vtriples vertices = v0 :: rest →
      computeBounds vertices =
        ⟨⟨(rest.map fun v => v.x).foldl min v0.x, (rest.map fun v => v.y).foldl min v0.y,
          (rest.map fun v => v.z).foldl min v0.z⟩,
         ⟨(rest.map fun v => v.x).foldl max v0.x, (rest.map fun v => v.y).foldl max v0.y,
          (rest.map fun v => v.z).foldl max v0.z⟩⟩ ∧
      ∀ v ∈ vtriples vertices,
        (computeBounds vertices).bmin.x ≤ v.x ∧ v.x ≤ (computeBounds vertices).bmax.x ∧
        (computeBounds vertices).bmin.y ≤ v.y ∧ v.y ≤ (computeBounds vertices).bmax.y ∧
        (computeBounds vertices).bmin.z ≤ v.z ∧ v.z ≤ (computeBounds vertices).bmax.z) ∧
    (vertices.length < 3 ∨ vertices.length % 3 = 0 →
      (computeBounds vertices).bmin.x ≤ (computeBounds vertices).bmax.x ∧
      (computeBounds vertices).bmin.y ≤ (computeBounds vertices).bmax.y ∧
      (computeBounds vertices).bmin.z ≤ (computeBounds vertices).bmax.z) := by
  have hshort : vertices.length < 3 → computeBounds vertices = ⟨⟨0, 0, 0⟩, ⟨0, 0, 0⟩⟩ := by
    intro h
    unfold computeBounds
    rw [if_pos h]
  have hfold : ∀ v0 rest, vertices.length % 3 = 0 → vtriples vertices = v0 :: rest →
      computeBounds vertices =
        ⟨⟨(rest.map fun v => v.x).foldl min v0.x, (rest.map fun v => v.y).foldl min v0.y,
          (rest.map fun v => v.z).foldl min v0.z⟩,
         ⟨(rest.map fun v => v.x).foldl max v0.x, (rest.map fun v => v.y).foldl max v0.y,
          (rest.map fun v => v.z).foldl max v0.z⟩⟩ := by
    intro v0 rest hmod hv
    rw [computeBounds_eq_fold vertices v0 rest hmod hv, boundsFold_eq]
  refine ⟨hshort, ?_, ?_⟩
  · intro v0 rest hmod hv
    refine ⟨hfold v0 rest hmod hv, ?_⟩
    intro v hvmem
    rw [hfold v0 rest hmod hv]
    rw [hv] at hvmem
    rcases List.mem_cons.mp hvmem with h | h
    · subst h
      exact ⟨foldl_min_le_init _ _, init_le_foldl_max _ _,
        foldl_min_le_init _ _, init_le_foldl_max _ _,
        foldl_min_le_init _ _, init_le_foldl_max _ _⟩
    · exact ⟨foldl_min_le_mem _ _ _ (List.mem_map_of_mem _ h),
        mem_le_foldl_max _ _ _ (List.mem_map_of_mem _ h),
        foldl_min_le_mem _ _ _ (List.mem_map_of_mem _ h),
        mem_le_foldl_max _ _ _ (List.mem_map_of_mem _ h),
        foldl_min_le_mem _ _ _ (List.mem_map_of_mem _ h),
        mem_le_foldl_max _ _ _ (List.mem_map_of_mem _ h)⟩
  · intro hcase
    by_cases hlt : vertices.length < 3
    · rw [hshort hlt]
      exact ⟨le_refl 0, le_refl 0, le_refl 0⟩
    · have hmod : vertices.length % 3 = 0 := by
        rcases hcase with h | h
        · exact absurd h hlt
        · exact h
      rcases hv : vtriples vertices with _ | ⟨v0, rest⟩
      · exfalso
        rcases vertices with _ | ⟨x, _ | ⟨y, _ | ⟨z, r⟩⟩⟩ <;>
          simp at hlt <;> simp [vtriples] at hv
      · rw [hfold v0 rest hmod hv]
        exact ⟨foldl_min_le_foldl_max _ _ _ (le_refl v0.x),
          foldl_min_le_foldl_max _ _ _ (le_refl v0.y),
          foldl_min_le_foldl_max _ _ _ (le_refl v0.z)⟩

/-- Witness for C10 at the array `[0,0,0,4,5,6]`: the fold equalities
and bounds of `computeBounds_spec` at a concrete well-formed input. -/
theorem computeBounds_spec_witness :
    ([0, 0, 0, 4, 5, 6] : List ℚ).length % 3 = 0 ∧
      vtriples [0, 0, 0, 4, 5, 6] = (⟨0, 0, 0⟩ : Vec3 ℚ) :: [⟨4, 5, 6⟩] ∧
      computeBounds [0, 0, 0, 4, 5, 6] =
        ⟨⟨([(⟨4, 5, 6⟩ : Vec3 ℚ)].map fun v => v.x).foldl min 0,
          ([(⟨4, 5, 6⟩ : Vec3 ℚ)].map fun v => v.y).foldl min 0,
          ([(⟨4, 5, 6⟩ : Vec3 ℚ)].map fun v => v.z).foldl min 0⟩,
         ⟨([(⟨4, 5, 6⟩ : Vec3 ℚ)].map fun v => v.x).foldl max 0,
          ([(⟨4, 5, 6⟩ : Vec3 ℚ)].map fun v => v.y).foldl max 0,
          ([(⟨4, 5, 6⟩ : Vec3 ℚ)].map fun v => v.z).foldl max 0⟩⟩ :=
  ⟨rfl, rfl,
    (((computeBounds_spec [0, 0, 0, 4, 5, 6]).2.1 ⟨0, 0, 0⟩ [⟨4, 5, 6⟩] rfl rfl).1)⟩

end SdfBlob
